import Mathlib

/-!
# KeyFinder audio decoders

A shallow embedding of the two decoder adapters of KeyFinder,
`LibAvDecoder` (decoderlibav.cpp) and `LibSndFileDecoder` (decoderlibsndfile.cpp),
together with the lock-manager callback `libAvMutexManager`.

The external libraries (the demuxer, the codec, the sound-file reader, the heap)
are parameters of the model: an environment record fixes what each library call
answers, and the adapters are pure functions of that record.
-/

namespace KeyFinder

/-! ## Machine integers, exceptions, outcomes -/

/-- Value of a C `int` after storing the integer `n` in it: reduction into the
signed 32-bit range. -/
def toInt32 (n : Int) : Int := (n + 2147483648) % 4294967296 - 2147483648

/-- The exceptions of the adapters. The source throws one `Exception` class and
tells the kinds apart by the message it logs or carries; the constructor names are
the kinds of the error taxonomy:
`OpenFailure` "Failed to open audio file",
`StreamProbeFailure` "Failed to find stream information in file",
`NoAudioStreamFailure` "Failed to find an audio stream in file",
`UnsupportedCodecFailure` "Audio stream has unsupported codec in file",
`CodecOpenFailure` "Error opening audio codec",
`ExcessiveCorruptionFailure` "100 bad packets, may be DRM or corruption in file",
`IncompleteReadFailure` "Failed to read all audio data",
`AllocationFailure` thrown by the buffer when it cannot grow. -/
inductive Exception where
  | OpenFailure
  | StreamProbeFailure
  | NoAudioStreamFailure
  | UnsupportedCodecFailure
  | CodecOpenFailure
  | ExcessiveCorruptionFailure
  | IncompleteReadFailure
  | AllocationFailure
  deriving DecidableEq, Repr

/-- How a call ends: it returns a value, it throws, or its loop never ends
(the fuel of the model ran out). -/
inductive Outcome (α : Type) where
  | returned (a : α)
  | thrown (e : Exception)
  | diverged
  deriving DecidableEq, Repr

/-- The native handles a decode call can hold open. -/
inductive Handle where
  | container
  | decoder
  | soundFile
  deriving DecidableEq, Repr

/-- The resources alive outside the call frame: the open native handles and the
number of audio buffer objects created with `new`. -/
structure Resources where
  handles : List Handle
  buffers : Nat
  deriving DecidableEq, Repr

/-- A library call opened handle `h`. -/
def Resources.acquire (r : Resources) (h : Handle) : Resources :=
  { r with handles := h :: r.handles }

/-- A library call released handle `h`. -/
def Resources.release (r : Resources) (h : Handle) : Resources :=
  { r with handles := r.handles.erase h }

/-- The statement `new AudioStream()` or `new AudioBuffer()`. -/
def Resources.newBuffer (r : Resources) : Resources :=
  { r with buffers := r.buffers + 1 }

/-! ## The audio stream filled by the libav adapter -/

/-- Modelled from the spec: the class `AudioStream` (audiostream.h is not among the
sources). It holds a sample rate, a channel count and the ordered, channel-interleaved
sequence of samples. A sample is a `float`; every sample this adapter stores is the
conversion of a 16-bit integer (or the `0.0f` of a fresh slot), which `float`
represents exactly, so a sample is modelled by its numeric value. -/
structure AudioStream where
  frameRate : Nat
  channels : Nat
  stream : List Int
  deriving DecidableEq, Repr

namespace AudioStream

/-- The buffer made by `new AudioStream()`: no samples. -/
def empty : AudioStream := ⟨0, 0, []⟩

def setFrameRate (ab : AudioStream) (r : Nat) : AudioStream := { ab with frameRate := r }

def setChannels (ab : AudioStream) (c : Nat) : AudioStream := { ab with channels := c }

def getSampleCount (ab : AudioStream) : Nat := ab.stream.length

/-- Grows the sample sequence by `n` fresh slots. `canGrow old n` tells whether the
heap grants the growth; when it does not, the method throws (`none`). -/
def addToSampleCount (canGrow : Nat → Nat → Bool) (ab : AudioStream) (n : Nat) :
    Option AudioStream :=
  if canGrow ab.getSampleCount n then
    some { ab with stream := ab.stream ++ List.replicate n 0 }
  else none

def setSample (ab : AudioStream) (i : Nat) (v : Int) : AudioStream :=
  { ab with stream := ab.stream.set i v }

end AudioStream

/-- The conversion `(float)outputBuffer[i]` of a 16-bit integer: the float of the
same numeric value. -/
def int16ToFloat (x : Int) : Int := x

/-! ## Packets and the decoder -/

/-- An `AVPacket`: the payload bytes, the `size` field and the index of the stream the
packet belongs to. -/
structure AVPacket where
  data : List Nat
  size : Int
  stream_index : Int
  deriving DecidableEq, Repr

/-- What one call of `avcodec_decode_audio3` reports: its return value (the bytes
consumed, or a non-positive value), the byte count it left in `outputBufferSize`, and
the contents of the 16-bit output array. -/
structure DecodeOutput where
  bytesConsumed : Int
  outputBufferSize : Nat
  outputBuffer : List Int
  deriving DecidableEq, Repr

/-- One recorded call of the decoder: the packet it was given and what it answered.
The record is a ghost of the model, the source keeps none. -/
structure DecodeCall where
  avpkt : AVPacket
  out : DecodeOutput
  deriving DecidableEq, Repr

/-- The variables `decodePacket` works on: the codec context, the packet, the audio
stream, and the ghost list of the decoder calls made so far. -/
structure PacketState (σ : Type) where
  cCtx : σ
  avpkt : AVPacket
  ab : AudioStream
  calls : List DecodeCall
  deriving DecidableEq, Repr

/-- The loop `for(int i = 0; i < newSamplesDecoded; i++) ab->setSample(oldSampleCount+i,
(float)outputBuffer[i]);` with `k` iterations left and loop variable `i`. -/
def writeSamples (oldSampleCount : Nat) (outputBuffer : List Int) :
    Nat → Nat → AudioStream → AudioStream
  | 0, _, ab => ab
  | k + 1, i, ab =>
    writeSamples oldSampleCount outputBuffer k (i + 1)
      (ab.setSample (oldSampleCount + i) (int16ToFloat (outputBuffer.getD i 0)))

/-- The loop of `LibAvDecoder::decodePacket`, one iteration per unit of fuel; with no
fuel left and bytes still to decode the loop is cut short as `diverged`.
`dec` is `avcodec_decode_audio3`: from the codec context and the packet it gives the
answer of the call and the next codec context. -/
def decodePacketLoop {σ : Type} (dec : σ → AVPacket → DecodeOutput × σ)
    (canGrow : Nat → Nat → Bool) : Nat → PacketState σ → Outcome (Int × PacketState σ)
  | 0, st => if st.avpkt.size > 0 then Outcome.diverged else Outcome.returned (0, st)
  | fuel + 1, st =>
    if st.avpkt.size > 0 then
      let r := dec st.cCtx st.avpkt
      let out := r.1
      let calls := st.calls ++ [⟨st.avpkt, out⟩]
      if out.bytesConsumed ≤ 0 then
        Outcome.returned (1, ⟨r.2, { st.avpkt with size := 0 }, st.ab, calls⟩)
      else
        let newSamplesDecoded := out.outputBufferSize / 2
        let oldSampleCount := st.ab.getSampleCount
        match st.ab.addToSampleCount canGrow newSamplesDecoded with
        | none => Outcome.thrown Exception.AllocationFailure
        | some ab1 =>
          let ab2 := writeSamples oldSampleCount out.outputBuffer newSamplesDecoded 0 ab1
          let avpkt1 : AVPacket :=
            if out.bytesConsumed < st.avpkt.size then
              let newLength := st.avpkt.size - out.bytesConsumed
              { st.avpkt with
                data := (st.avpkt.data.drop out.bytesConsumed.toNat).take newLength.toNat }
            else st.avpkt
          let avpkt2 : AVPacket := { avpkt1 with size := avpkt1.size - out.bytesConsumed }
          decodePacketLoop dec canGrow fuel ⟨r.2, avpkt2, ab2, calls⟩
    else Outcome.returned (0, st)

/-- The function `LibAvDecoder::decodePacket(cCtx, avpkt, ab)`. The loop is given as
many iterations as the packet has bytes. -/
def decodePacket {σ : Type} (dec : σ → AVPacket → DecodeOutput × σ)
    (canGrow : Nat → Nat → Bool) (cCtx : σ) (avpkt : AVPacket) (ab : AudioStream) :
    Outcome (Int × PacketState σ) :=
  decodePacketLoop dec canGrow avpkt.size.toNat ⟨cCtx, avpkt, ab, []⟩

/-! ## The libav adapter -/

/-- The media type of a stream (`codec_type`). -/
inductive AVMediaType where
  | AVMEDIA_TYPE_VIDEO
  | AVMEDIA_TYPE_AUDIO
  | AVMEDIA_TYPE_SUBTITLE
  deriving DecidableEq, Repr

/-- A stream of the container with the fields of its codec context that `decodeFile`
reads. -/
structure AVStream where
  codec_type : AVMediaType
  codec_id : Nat
  sample_rate : Nat
  channels : Nat
  deriving DecidableEq, Repr

/-- The answers of the libav library and of the heap during one call of
`LibAvDecoder::decodeFile`.
* `avformat_open_input`, `av_find_stream_info`, `avcodec_open2`, `avcodec_close`:
  the return value of the call of that name (that of `avcodec_close` is only logged and
  changes nothing in the call);
* `streams`: the array `fCtx->streams`, of length `fCtx->nb_streams`;
* `avcodec_find_decoder`: whether a decoder exists for a codec id;
* `cCtx`: the codec context after `avcodec_open2`;
* `avcodec_decode_audio3`: the decoder;
* `packets`: the packets `av_read_frame` delivers before it first returns non-zero;
* `canGrow`: whether the heap grants a growth of the audio stream. -/
structure LibAv (σ : Type) where
  avformat_open_input : Int
  av_find_stream_info : Int
  streams : List AVStream
  avcodec_find_decoder : Nat → Bool
  avcodec_open2 : Int
  cCtx : σ
  avcodec_decode_audio3 : σ → AVPacket → DecodeOutput × σ
  packets : List AVPacket
  canGrow : Nat → Nat → Bool
  avcodec_close : Int

/-- The body of the stream scan from loop variable `i` on, over the streams not yet
visited: the index of the first audio stream, or `-1`. -/
def scanStreams : List AVStream → Int → Int
  | [], _ => -1
  | s :: rest, i =>
    if s.codec_type = AVMediaType.AVMEDIA_TYPE_AUDIO then i else scanStreams rest (i + 1)

/-- The variable `audioStream` after the loop
`for(int i=0; i<(signed)fCtx->nb_streams; i++)`: the loop visits the indices below the
stream count read as a signed 32-bit integer. -/
def findAudioStream (streams : List AVStream) : Int :=
  scanStreams (streams.take (toInt32 streams.length).toNat) 0

/-- The stream `fCtx->streams[audioStream]` that `decodeFile` selects once an audio stream
was found; its fields stand for those of its codec context. -/
def selectedStream {σ : Type} (env : LibAv σ) : AVStream :=
  env.streams.getD (findAudioStream env.streams).toNat ⟨AVMediaType.AVMEDIA_TYPE_AUDIO, 0, 0, 0⟩

/-- The variables of the packet loop of `decodeFile`: the codec context, the audio
stream and `badPacketCount`. -/
structure FileState (σ : Type) where
  cCtx : σ
  astrm : AudioStream
  badPacketCount : Int
  deriving DecidableEq, Repr

/-- The loop `while(av_read_frame(fCtx, &avpkt) == 0)` of `decodeFile` over the packets
still to be read. -/
def readFrames {σ : Type} (env : LibAv σ) (audioStream : Int) :
    List AVPacket → FileState σ → Outcome (FileState σ)
  | [], st => Outcome.returned st
  | avpkt :: rest, st =>
    if avpkt.stream_index = audioStream then
      match decodePacket env.avcodec_decode_audio3 env.canGrow st.cCtx avpkt st.astrm with
      | Outcome.thrown e => Outcome.thrown e
      | Outcome.diverged => Outcome.diverged
      | Outcome.returned (result, ps) =>
        if result ≠ 0 then
          if st.badPacketCount < 100 then
            readFrames env audioStream rest ⟨ps.cCtx, ps.ab, st.badPacketCount + 1⟩
          else Outcome.thrown Exception.ExcessiveCorruptionFailure
        else readFrames env audioStream rest ⟨ps.cCtx, ps.ab, st.badPacketCount⟩
    else readFrames env audioStream rest st

/-- The function `LibAvDecoder::decodeFile`: from the resources alive before the call
to the resources alive after it and the way the call ends. A successful
`avformat_open_input` opens the container handle and a successful `avcodec_open2` the
decoder handle; `avcodec_close` and `av_close_input_file` give them back. -/
def LibAvDecoder.decodeFile {σ : Type} (env : LibAv σ) (res : Resources) :
    Resources × Outcome AudioStream :=
  if env.avformat_open_input ≠ 0 then (res, Outcome.thrown Exception.OpenFailure)
  else
    let res1 := res.acquire Handle.container
    if env.av_find_stream_info < 0 then (res1, Outcome.thrown Exception.StreamProbeFailure)
    else
      let audioStream := findAudioStream env.streams
      if audioStream = -1 then (res1, Outcome.thrown Exception.NoAudioStreamFailure)
      else
        let stream := selectedStream env
        if env.avcodec_find_decoder stream.codec_id = false then
          (res1, Outcome.thrown Exception.UnsupportedCodecFailure)
        else if env.avcodec_open2 < 0 then
          (res1, Outcome.thrown Exception.CodecOpenFailure)
        else
          let res2 := (res1.acquire Handle.decoder).newBuffer
          let astrm := (AudioStream.empty.setFrameRate stream.sample_rate).setChannels
            stream.channels
          match readFrames env audioStream env.packets ⟨env.cCtx, astrm, 0⟩ with
          | Outcome.thrown e => (res2, Outcome.thrown e)
          | Outcome.diverged => (res2, Outcome.diverged)
          | Outcome.returned st =>
            ((res2.release Handle.decoder).release Handle.container,
              Outcome.returned st.astrm)

/-! ## The lock manager -/

/-- The operation requested of the lock manager; `invalid` stands for any value of the
enumeration outside the four named ones. -/
inductive AVLockOp where
  | AV_LOCK_CREATE
  | AV_LOCK_OBTAIN
  | AV_LOCK_RELEASE
  | AV_LOCK_DESTROY
  | invalid
  deriving DecidableEq, Repr

/-- Modelled from the spec: the mutual-exclusion primitive `QMutex` of the host
environment (its declaration is not among the sources), a non-recursive mutex that
is held or not. -/
structure QMutex where
  held : Bool
  deriving DecidableEq, Repr

/-- The method `QMutex::tryLock`: takes the mutex when it is free and says so, leaves it
alone and answers false when it is held; it never waits. -/
def QMutex.tryLock (m : QMutex) : Bool × QMutex :=
  if m.held then (false, m) else (true, ⟨true⟩)

/-- The method `QMutex::unlock`. -/
def QMutex.unlock (_m : QMutex) : QMutex := ⟨false⟩

/-- The function `libAvMutexManager(av_mutex, op)`. The slot `*av_mutex` holds a mutex
or `NULL` (`none`); `allocOk` tells whether `new QMutex()` succeeds. The result is the
returned status and the slot after the call; `none` is a call that dereferences a
`NULL` slot. -/
def libAvMutexManager (av_mutex : Option QMutex) (op : AVLockOp) (allocOk : Bool) :
    Option (Int × Option QMutex) :=
  match op with
  | AVLockOp.AV_LOCK_CREATE =>
    if allocOk then some (0, some ⟨false⟩) else some (1, av_mutex)
  | AVLockOp.AV_LOCK_OBTAIN =>
    match av_mutex with
    | none => none
    | some m =>
      let r := m.tryLock
      if r.1 then some (0, some r.2) else some (1, some r.2)
  | AVLockOp.AV_LOCK_RELEASE =>
    match av_mutex with
    | none => none
    | some m => some (0, some m.unlock)
  | AVLockOp.AV_LOCK_DESTROY => some (0, none)
  | AVLockOp.invalid => some (1, av_mutex)

/-- A run of lock-manager calls on one slot, every allocation granted: the statuses
returned, in call order, and the slot at the end; `none` when a call dereferences a
`NULL` slot. -/
def runMutexOps : Option QMutex → List AVLockOp → Option (List Int × Option QMutex)
  | slot, [] => some ([], slot)
  | slot, op :: rest =>
    match libAvMutexManager slot op true with
    | none => none
    | some (status, slot1) =>
      match runMutexOps slot1 rest with
      | none => none
      | some (statuses, slot2) => some (status :: statuses, slot2)

/-! ## The libsndfile adapter -/

/-- The fields of `SF_INFO` the adapter reads. -/
structure SF_INFO where
  frames : Nat
  samplerate : Nat
  channels : Nat
  deriving DecidableEq, Repr

/-- Modelled from the spec: the class `AudioBuffer` (its header is not among the
sources): a sample rate, a channel count and the sample sequence `buffer`. The samples
are the floats of the file, of a type `α` left open. -/
structure AudioBuffer (α : Type) where
  frameRate : Nat
  channels : Nat
  buffer : List α
  deriving DecidableEq, Repr

namespace AudioBuffer

/-- The buffer made by `new AudioBuffer()`. -/
def empty {α : Type} : AudioBuffer α := ⟨0, 0, []⟩

def setFrameRate {α : Type} (ab : AudioBuffer α) (r : Nat) : AudioBuffer α :=
  { ab with frameRate := r }

def setChannels {α : Type} (ab : AudioBuffer α) (c : Nat) : AudioBuffer α :=
  { ab with channels := c }

def getSampleCount {α : Type} (ab : AudioBuffer α) : Nat := ab.buffer.length

/-- Grows the buffer by `n` slots holding `zero`; throws (`none`) when the heap does not
grant the growth. -/
def addSamples {α : Type} (canGrow : Nat → Bool) (zero : α) (ab : AudioBuffer α) (n : Nat) :
    Option (AudioBuffer α) :=
  if canGrow n then some { ab with buffer := ab.buffer ++ List.replicate n zero } else none

end AudioBuffer

/-- The answers of libsndfile and of the heap during one call of
`LibSndFileDecoder::decodeFile`.
* `sf_open`: the file information when the file opens, `none` when `sf_open` returns
  `NULL`;
* `fileData`: the samples the file really holds; `sf_read_float` delivers as many of
  them as are requested and present;
* `canGrow`: whether the heap grants the buffer of the requested size;
* `zero`: the value of a fresh buffer slot. -/
structure SndFile (α : Type) where
  sf_open : Option SF_INFO
  fileData : List α
  canGrow : Nat → Bool
  zero : α

/-- The call `sf_read_float(soundFile, &ab->buffer.front(), count)`: the samples read
overwrite the front of the buffer; the result is the buffer and the number read. -/
def sf_read_float {α : Type} (env : SndFile α) (buffer : List α) (count : Nat) :
    List α × Nat :=
  let got := env.fileData.take count
  (got ++ buffer.drop got.length, got.length)

/-- The function `LibSndFileDecoder::decodeFile`: from the resources alive before the
call to the resources alive after it and the way the call ends. A successful `sf_open`
opens the sound-file handle, `sf_close` gives it back. The number read is stored in an
`int`. -/
def LibSndFileDecoder.decodeFile {α : Type} (env : SndFile α) (res : Resources) :
    Resources × Outcome (AudioBuffer α) :=
  match env.sf_open with
  | none => (res, Outcome.thrown Exception.OpenFailure)
  | some soundFileInfo =>
    let res1 := (res.acquire Handle.soundFile).newBuffer
    let ab := (AudioBuffer.empty.setFrameRate soundFileInfo.samplerate).setChannels
      soundFileInfo.channels
    match ab.addSamples env.canGrow env.zero (soundFileInfo.frames * soundFileInfo.channels) with
    | none => (res1, Outcome.thrown Exception.AllocationFailure)
    | some ab1 =>
      let r := sf_read_float env ab1.buffer ab1.getSampleCount
      let ab2 : AudioBuffer α := { ab1 with buffer := r.1 }
      let audioSamplesRead : Int := toInt32 r.2
      if audioSamplesRead < (ab2.getSampleCount : Int) then
        (res1, Outcome.thrown Exception.IncompleteReadFailure)
      else (res1.release Handle.soundFile, Outcome.returned ab2)

/-! ## Decoded samples and runs of the packet loop -/

/-- The samples one decoder call contributes: the first `outputBufferSize / 2` entries
of its output array, each converted to float, in order. -/
def samplesOf (out : DecodeOutput) : List Int :=
  (List.range (out.outputBufferSize / 2)).map (fun i => int16ToFloat (out.outputBuffer.getD i 0))

/-- The samples a list of decoder calls contributes: those of every call that consumed a
positive number of bytes, in call order. -/
def decodedSamples : List DecodeCall → List Int
  | [] => []
  | c :: rest =>
    if 0 < c.out.bytesConsumed then samplesOf c.out ++ decodedSamples rest
    else decodedSamples rest

/-- What a finished run of the packet loop from `st` to `st1` with result `ret` did;
`new` are the decoder calls of the run. -/
structure PacketRun {σ : Type} (dec : σ → AVPacket → DecodeOutput × σ) (st : PacketState σ)
    (ret : Int) (st1 : PacketState σ) (new : List DecodeCall) : Prop where
  calls_eq : st1.calls = st.calls ++ new
  frameRate_eq : st1.ab.frameRate = st.ab.frameRate
  channels_eq : st1.ab.channels = st.ab.channels
  stream_eq : st1.ab.stream = st.ab.stream ++ decodedSamples new
  size_bound : ∀ c ∈ new, 0 < c.avpkt.size ∧ c.avpkt.size ≤ st.avpkt.size
  decreasing : new.Pairwise (fun c d => d.avpkt.size < c.avpkt.size)
  length_le : new.length ≤ st.avpkt.size.toNat
  size_exit : st1.avpkt.size ≤ 0
  ret_cases : (ret = 0 ∧ ∀ c ∈ new, 0 < c.out.bytesConsumed) ∨
    (ret = 1 ∧ st1.avpkt.size = 0 ∧ ∃ pre c, new = pre ++ [c] ∧ c.out.bytesConsumed ≤ 0 ∧
      ∀ d ∈ pre, 0 < d.out.bytesConsumed)
  from_dec : ∀ c ∈ new, ∃ s, c.out = (dec s c.avpkt).1

/-- The state of the packet loop after an iteration whose decoder call consumed a
positive number of bytes and whose buffer growth was granted. -/
def stepState {σ : Type} (dec : σ → AVPacket → DecodeOutput × σ) (st : PacketState σ) :
    PacketState σ :=
  ⟨(dec st.cCtx st.avpkt).2,
   ⟨if (dec st.cCtx st.avpkt).1.bytesConsumed < st.avpkt.size then
      (st.avpkt.data.drop (dec st.cCtx st.avpkt).1.bytesConsumed.toNat).take
        (st.avpkt.size - (dec st.cCtx st.avpkt).1.bytesConsumed).toNat
    else st.avpkt.data,
    st.avpkt.size - (dec st.cCtx st.avpkt).1.bytesConsumed, st.avpkt.stream_index⟩,
   ⟨st.ab.frameRate, st.ab.channels, st.ab.stream ++ samplesOf (dec st.cCtx st.avpkt).1⟩,
   st.calls ++ [⟨st.avpkt, (dec st.cCtx st.avpkt).1⟩]⟩

/-! ## The specified decoder calls, and examples -/

/-- The decoder calls the packet loop is specified to make on a packet of stream
`stream_index` whose unconsumed bytes are `bytes`: while bytes remain, one call against
them; a call that consumes no byte (or reports an error) is the last; a call that
consumes fewer bytes than remain is followed by the calls on the unconsumed tail;
otherwise the packet is fully consumed. At most `fuel` calls are listed. -/
def tailDecodes {σ : Type} (dec : σ → AVPacket → DecodeOutput × σ) (stream_index : Int) :
    Nat → σ → List Nat → List DecodeCall
  | 0, _, _ => []
  | _ + 1, _, [] => []
  | fuel + 1, cCtx, b :: bytes =>
    let avpkt : AVPacket := ⟨b :: bytes, ((b :: bytes).length : Int), stream_index⟩
    let r := dec cCtx avpkt
    ⟨avpkt, r.1⟩ ::
      (if r.1.bytesConsumed ≤ 0 then []
       else if r.1.bytesConsumed < ((b :: bytes).length : Int) then
         tailDecodes dec stream_index fuel r.2 ((b :: bytes).drop r.1.bytesConsumed.toNat)
       else [])

/-- A decoder for examples: a call consumes one byte; a non-zero byte `b` yields the one
sample `b`, the byte `0` cannot be decoded. -/
def byteDecoder : Unit → AVPacket → DecodeOutput × Unit := fun _ avpkt =>
  match avpkt.data with
  | (b + 1) :: _ => (⟨1, 2, [((b + 1 : Nat) : Int)]⟩, ())
  | _ => (⟨0, 0, []⟩, ())

/-- A heap that grants every growth. -/
def grantAll : Nat → Nat → Bool := fun _ _ => true

/-- An audio packet of three bytes, the last of which `byteDecoder` cannot decode. -/
def examplePacket : AVPacket := ⟨[3, 5, 0], 3, 1⟩

/-- The state in which `decodePacket` leaves `examplePacket` decoded by `byteDecoder` into
a stream that held the one sample `1`. -/
def exampleState : PacketState Unit :=
  ⟨(), ⟨[0], 0, 1⟩, ⟨44100, 2, [1, 3, 5]⟩,
    [⟨⟨[3, 5, 0], 3, 1⟩, ⟨1, 2, [3]⟩⟩, ⟨⟨[5, 0], 2, 1⟩, ⟨1, 2, [5]⟩⟩,
     ⟨⟨[0], 1, 1⟩, ⟨0, 0, []⟩⟩]⟩

/-! ## The packets of a file -/

/-- The results of `decodePacket` on the packets of stream `audioStream`, in file order,
each started in the codec context and with the audio stream the previous one left, were
the packet loop of `decodeFile` never to give up on bad packets. The list ends at the
first call that does not return. -/
def packetOutcomes {σ : Type} (env : LibAv σ) (audioStream : Int) :
    List AVPacket → σ → AudioStream → List (Int × PacketState σ)
  | [], _, _ => []
  | avpkt :: rest, cCtx, ab =>
    if avpkt.stream_index = audioStream then
      match decodePacket env.avcodec_decode_audio3 env.canGrow cCtx avpkt ab with
      | Outcome.returned (ret, ps) =>
        (ret, ps) :: packetOutcomes env audioStream rest ps.cCtx ps.ab
      | _ => []
    else packetOutcomes env audioStream rest cCtx ab

/-- The number of undecodable packets: those on which `decodePacket` returned
non-zero. -/
def undecodableCount {σ : Type} : List (Int × PacketState σ) → Nat
  | [] => 0
  | o :: rest => if o.1 ≠ 0 then undecodableCount rest + 1 else undecodableCount rest

/-- The samples of all decoder calls that consumed bytes, packet after packet. -/
def outcomeSamples {σ : Type} : List (Int × PacketState σ) → List Int
  | [] => []
  | o :: rest => decodedSamples o.2.calls ++ outcomeSamples rest

/-- The samples decoded from the good packets only (those on which `decodePacket`
returned 0), packet after packet. -/
def goodPacketSamples {σ : Type} : List (Int × PacketState σ) → List Int
  | [] => []
  | o :: rest =>
    if o.1 = 0 then decodedSamples o.2.calls ++ goodPacketSamples rest
    else goodPacketSamples rest

/-- The audio stream as `decodeFile` prepares it before the packet loop. -/
def initialStream {σ : Type} (env : LibAv σ) : AudioStream :=
  ⟨(selectedStream env).sample_rate, (selectedStream env).channels, []⟩

/-- The outcomes of `decodePacket` on the audio packets of the file. -/
def fileOutcomes {σ : Type} (env : LibAv σ) : List (Int × PacketState σ) :=
  packetOutcomes env (findAudioStream env.streams) env.packets env.cCtx (initialStream env)

/-- None of the fatal conditions before the packet loop holds: the file opens, its
streams are found, one of them is audio, a decoder exists for it and opens. -/
def ReachesPacketLoop {σ : Type} (env : LibAv σ) : Prop :=
  env.avformat_open_input = 0 ∧ 0 ≤ env.av_find_stream_info ∧
  findAudioStream env.streams ≠ -1 ∧
  env.avcodec_find_decoder (selectedStream env).codec_id = true ∧ 0 ≤ env.avcodec_open2

/-! ## Example files -/

/-- A packet of audio stream 0 that `byteDecoder` cannot decode. -/
def badPacket : AVPacket := ⟨[0], 1, 0⟩

/-- A file whose only stream is audio and whose `n` packets are all undecodable. -/
def badPacketFile (n : Nat) : LibAv Unit :=
  { avformat_open_input := 0
    av_find_stream_info := 0
    streams := [⟨AVMediaType.AVMEDIA_TYPE_AUDIO, 1, 44100, 2⟩]
    avcodec_find_decoder := fun _ => true
    avcodec_open2 := 0
    cCtx := ()
    avcodec_decode_audio3 := byteDecoder
    packets := List.replicate n badPacket
    canGrow := grantAll
    avcodec_close := 0 }

/-- The state in which `decodePacket` leaves `badPacket`. -/
def badPacketState : PacketState Unit :=
  ⟨(), ⟨[0], 0, 0⟩, ⟨44100, 2, []⟩, [⟨⟨[0], 1, 0⟩, ⟨0, 0, []⟩⟩]⟩

/-- A file for examples, decoded by `byteDecoder`, whose library answers are the
arguments. -/
def exampleFile (openResult probeResult : Int) (streams : List AVStream) (found : Bool)
    (codecOpenResult : Int) (packets : List AVPacket) (canGrow : Nat → Nat → Bool) :
    LibAv Unit :=
  { avformat_open_input := openResult
    av_find_stream_info := probeResult
    streams := streams
    avcodec_find_decoder := fun _ => found
    avcodec_open2 := codecOpenResult
    cCtx := ()
    avcodec_decode_audio3 := byteDecoder
    packets := packets
    canGrow := canGrow
    avcodec_close := 0 }

/-- A video stream followed by a stereo audio stream. -/
def videoAndAudio : List AVStream :=
  [⟨AVMediaType.AVMEDIA_TYPE_VIDEO, 7, 0, 0⟩, ⟨AVMediaType.AVMEDIA_TYPE_AUDIO, 1, 44100, 2⟩]

/-- A file with a video packet, a good audio packet, the audio packet `examplePacket`
whose third byte cannot be decoded, and another good audio packet. -/
def mixedFile : LibAv Unit :=
  exampleFile 0 0 videoAndAudio true 0
    [⟨[9], 1, 0⟩, ⟨[2], 1, 1⟩, examplePacket, ⟨[4], 1, 1⟩] grantAll

/-- A stereo file whose one audio packet decodes to a single sample. -/
def oddFile : LibAv Unit :=
  exampleFile 0 0 videoAndAudio true 0 [⟨[3], 1, 1⟩] grantAll

/-- A mono sound file that declares two frames and holds one sample. -/
def shortFile : SndFile Int := ⟨some ⟨2, 44100, 1⟩, [5], fun _ => true, 0⟩

/-- A stereo sound file that declares two frames and holds their four samples. -/
def wholeFile : SndFile Int := ⟨some ⟨2, 44100, 2⟩, [5, 6, 7, 8], fun _ => true, 0⟩

/-- A decoder for examples that emits whole stereo frames: a call consumes one byte; a
non-zero byte `b` yields the frame `b, b`, the byte `0` cannot be decoded. -/
def frameDecoder : Unit → AVPacket → DecodeOutput × Unit := fun _ avpkt =>
  match avpkt.data with
  | (b + 1) :: _ => (⟨1, 4, [((b + 1 : Nat) : Int), ((b + 1 : Nat) : Int)]⟩, ())
  | _ => (⟨0, 0, []⟩, ())

/-- The file `mixedFile` decoded by `frameDecoder`. -/
def stereoFile : LibAv Unit := { mixedFile with avcodec_decode_audio3 := frameDecoder }

/-- A sound file that cannot be opened. -/
def missingSoundFile : SndFile Int := ⟨none, [], fun _ => true, 0⟩

/-- A heap that refuses every growth. -/
def refuseAll : Nat → Nat → Bool := fun _ _ => false

/-- A file with a decodable audio packet, read while the heap refuses to grow the audio
stream. -/
def starvedFile : LibAv Unit :=
  exampleFile 0 0 videoAndAudio true 0 [⟨[3], 1, 1⟩] refuseAll

/-! ## Theorems -/

/-! ### The packet loop -/

theorem decodePacketLoop_zero {σ : Type} (dec : σ → AVPacket → DecodeOutput × σ)
    (canGrow : Nat → Nat → Bool) (st : PacketState σ) :
    decodePacketLoop dec canGrow 0 st =
      if st.avpkt.size > 0 then Outcome.diverged else Outcome.returned (0, st) := by
  rw [decodePacketLoop]

theorem writeSamples_eq (old : Nat) (buf : List Int) (k : Nat) :
    ∀ (i fr ch : Nat) (pre : List Int), pre.length = old + i →
      writeSamples old buf k i ⟨fr, ch, pre ++ List.replicate k 0⟩ =
        ⟨fr, ch, pre ++ (List.range' i k).map (fun j => int16ToFloat (buf.getD j 0))⟩ := by
  induction k with
  | zero => intro i fr ch pre _; simp [writeSamples]
  | succ k ih =>
    intro i fr ch pre hpre
    have hset : (pre ++ List.replicate (k + 1) (0 : Int)).set (old + i) (int16ToFloat (buf.getD i 0))
        = (pre ++ [int16ToFloat (buf.getD i 0)]) ++ List.replicate k 0 := by
      rw [← hpre, List.replicate_succ]
      simp
    simp only [writeSamples, AudioStream.setSample, hset]
    rw [ih (i + 1) fr ch _ (by simp [hpre]; omega)]
    simp [List.range'_succ]

theorem decodePacketLoop_succ {σ : Type} (dec : σ → AVPacket → DecodeOutput × σ)
    (canGrow : Nat → Nat → Bool) (fuel : Nat) (st : PacketState σ) (h : 0 < st.avpkt.size) :
    decodePacketLoop dec canGrow (fuel + 1) st =
      if (dec st.cCtx st.avpkt).1.bytesConsumed ≤ 0 then
        Outcome.returned (1, ⟨(dec st.cCtx st.avpkt).2, { st.avpkt with size := 0 }, st.ab,
          st.calls ++ [⟨st.avpkt, (dec st.cCtx st.avpkt).1⟩]⟩)
      else if canGrow st.ab.stream.length ((dec st.cCtx st.avpkt).1.outputBufferSize / 2) = true then
        decodePacketLoop dec canGrow fuel (stepState dec st)
      else Outcome.thrown Exception.AllocationFailure := by
  have hw := writeSamples_eq st.ab.stream.length (dec st.cCtx st.avpkt).1.outputBuffer
    ((dec st.cCtx st.avpkt).1.outputBufferSize / 2) 0 st.ab.frameRate st.ab.channels
    st.ab.stream rfl
  rw [← List.range_eq_range'] at hw
  simp only [decodePacketLoop, h, gt_iff_lt, if_true]
  by_cases hc : (dec st.cCtx st.avpkt).1.bytesConsumed ≤ 0
  · simp [hc]
  · simp only [hc, if_false, AudioStream.addToSampleCount, AudioStream.getSampleCount]
    by_cases hg : canGrow st.ab.stream.length ((dec st.cCtx st.avpkt).1.outputBufferSize / 2) = true
    · simp only [hg, if_true, hw, samplesOf, stepState]
      by_cases hlt : (dec st.cCtx st.avpkt).1.bytesConsumed < st.avpkt.size
      · simp [hlt]
      · simp [hlt]
    · simp [hg]

theorem decodePacketLoop_exit {σ : Type} (dec : σ → AVPacket → DecodeOutput × σ)
    (canGrow : Nat → Nat → Bool) (fuel : Nat) (st : PacketState σ) (h : st.avpkt.size ≤ 0) :
    decodePacketLoop dec canGrow fuel st = Outcome.returned (0, st) := by
  cases fuel <;> simp [decodePacketLoop, not_lt.mpr h]

theorem decodePacketLoop_run {σ : Type} (dec : σ → AVPacket → DecodeOutput × σ)
    (canGrow : Nat → Nat → Bool) :
    ∀ (fuel : Nat) (st : PacketState σ), st.avpkt.size.toNat ≤ fuel →
      decodePacketLoop dec canGrow fuel st = Outcome.thrown Exception.AllocationFailure ∨
      ∃ ret st1 new, decodePacketLoop dec canGrow fuel st = Outcome.returned (ret, st1) ∧
        PacketRun dec st ret st1 new := by
  intro fuel
  induction fuel with
  | zero =>
    intro st h
    right
    have hs : st.avpkt.size ≤ 0 := by omega
    refine ⟨0, st, [], decodePacketLoop_exit dec canGrow 0 st hs, ?_⟩
    exact ⟨by simp, rfl, rfl, by simp [decodedSamples], by simp, by simp, by simp, hs,
      Or.inl ⟨rfl, by simp⟩, by simp⟩
  | succ fuel ih =>
    intro st h
    by_cases hs : st.avpkt.size ≤ 0
    · right
      refine ⟨0, st, [], decodePacketLoop_exit dec canGrow _ st hs, ?_⟩
      exact ⟨by simp, rfl, rfl, by simp [decodedSamples], by simp, by simp, by simp, hs,
        Or.inl ⟨rfl, by simp⟩, by simp⟩
    · have hpos : 0 < st.avpkt.size := by omega
      rw [decodePacketLoop_succ dec canGrow fuel st hpos]
      by_cases hc : (dec st.cCtx st.avpkt).1.bytesConsumed ≤ 0
      · right
        rw [if_pos hc]
        refine ⟨1, _, [⟨st.avpkt, (dec st.cCtx st.avpkt).1⟩], rfl, ?_⟩
        refine ⟨rfl, rfl, rfl, ?_, ?_, by simp, ?_, le_refl _, ?_, ?_⟩
        · simp [decodedSamples, not_lt.mpr hc]
        · intro c hcm
          simp only [List.mem_singleton] at hcm
          subst hcm
          exact ⟨hpos, le_refl _⟩
        · simp only [List.length_singleton]; omega
        · exact Or.inr ⟨rfl, rfl, [], _, rfl, hc, by simp⟩
        · intro c hcm
          simp only [List.mem_singleton] at hcm
          subst hcm
          exact ⟨st.cCtx, rfl⟩
      · rw [if_neg hc]
        by_cases hg : canGrow st.ab.stream.length
            ((dec st.cCtx st.avpkt).1.outputBufferSize / 2) = true
        · rw [if_pos hg]
          have hcpos : 0 < (dec st.cCtx st.avpkt).1.bytesConsumed := by omega
          rcases ih (stepState dec st) (by simp only [stepState]; omega) with hthrow | ⟨ret, st1, new, hrun, hp⟩
          · exact Or.inl hthrow
          · right
            refine ⟨ret, st1, ⟨st.avpkt, (dec st.cCtx st.avpkt).1⟩ :: new, hrun, ?_⟩
            refine ⟨?_, hp.frameRate_eq, hp.channels_eq, ?_, ?_, ?_, ?_, hp.size_exit, ?_, ?_⟩
            · rw [hp.calls_eq]; simp [stepState]
            · rw [hp.stream_eq]; simp [decodedSamples, hcpos, stepState]
            · intro c hcm
              rcases List.mem_cons.mp hcm with rfl | hcm
              · exact ⟨hpos, le_refl _⟩
              · have := hp.size_bound c hcm
                simp only [stepState] at this
                exact ⟨this.1, by omega⟩
            · refine List.pairwise_cons.mpr ⟨?_, hp.decreasing⟩
              intro d hd
              have := hp.size_bound d hd
              simp only [stepState] at this ⊢
              omega
            · have := hp.length_le
              simp only [List.length_cons, stepState] at this ⊢
              omega
            · rcases hp.ret_cases with ⟨h0, hall⟩ | ⟨h1, hz, pre, c, hnew, hcle, hpre⟩
              · left
                refine ⟨h0, ?_⟩
                intro c hcm
                rcases List.mem_cons.mp hcm with rfl | hcm
                · exact hcpos
                · exact hall c hcm
              · right
                refine ⟨h1, hz, ⟨st.avpkt, (dec st.cCtx st.avpkt).1⟩ :: pre, c, ?_, hcle, ?_⟩
                · rw [hnew]; simp
                · intro d hd
                  rcases List.mem_cons.mp hd with rfl | hd
                  · exact hcpos
                  · exact hpre d hd
            · intro c hcm
              rcases List.mem_cons.mp hcm with rfl | hcm
              · exact ⟨st.cCtx, rfl⟩
              · exact hp.from_dec c hcm
        · left
          rw [if_neg hg]

theorem decodePacketLoop_fuel {σ : Type} (dec : σ → AVPacket → DecodeOutput × σ)
    (canGrow : Nat → Nat → Bool) :
    ∀ (fuel fuel2 : Nat) (st : PacketState σ), st.avpkt.size.toNat ≤ fuel →
      st.avpkt.size.toNat ≤ fuel2 →
      decodePacketLoop dec canGrow fuel st = decodePacketLoop dec canGrow fuel2 st := by
  intro fuel
  induction fuel with
  | zero =>
    intro fuel2 st h _
    have hs : st.avpkt.size ≤ 0 := by omega
    rw [decodePacketLoop_exit dec canGrow 0 st hs, decodePacketLoop_exit dec canGrow fuel2 st hs]
  | succ fuel ih =>
    intro fuel2 st h h2
    by_cases hs : st.avpkt.size ≤ 0
    · rw [decodePacketLoop_exit dec canGrow _ st hs, decodePacketLoop_exit dec canGrow fuel2 st hs]
    · have hpos : 0 < st.avpkt.size := by omega
      cases fuel2 with
      | zero => omega
      | succ fuel2 =>
        rw [decodePacketLoop_succ dec canGrow fuel st hpos,
          decodePacketLoop_succ dec canGrow fuel2 st hpos]
        by_cases hc : (dec st.cCtx st.avpkt).1.bytesConsumed ≤ 0
        · rw [if_pos hc, if_pos hc]
        · rw [if_neg hc, if_neg hc]
          by_cases hg : canGrow st.ab.stream.length
              ((dec st.cCtx st.avpkt).1.outputBufferSize / 2) = true
          · rw [if_pos hg, if_pos hg]
            exact ih fuel2 (stepState dec st) (by simp only [stepState]; omega)
              (by simp only [stepState]; omega)
          · rw [if_neg hg, if_neg hg]

/-! ### The order of the decoder calls, and C10: the packet loop ends -/

theorem tailDecodes_nil {σ : Type} (dec : σ → AVPacket → DecodeOutput × σ) (idx : Int)
    (n : Nat) (cCtx : σ) : tailDecodes dec idx n cCtx [] = [] := by
  cases n <;> rfl

theorem tailDecodes_succ {σ : Type} (dec : σ → AVPacket → DecodeOutput × σ) (n : Nat)
    (cCtx : σ) (avpkt : AVPacket) (hwf : avpkt.size = (avpkt.data.length : Int))
    (hpos : 0 < avpkt.size) :
    tailDecodes dec avpkt.stream_index (n + 1) cCtx avpkt.data =
      ⟨avpkt, (dec cCtx avpkt).1⟩ ::
        (if (dec cCtx avpkt).1.bytesConsumed ≤ 0 then []
         else if (dec cCtx avpkt).1.bytesConsumed < avpkt.size then
           tailDecodes dec avpkt.stream_index n (dec cCtx avpkt).2
             (avpkt.data.drop (dec cCtx avpkt).1.bytesConsumed.toNat)
         else []) := by
  obtain ⟨data, size, idx⟩ := avpkt
  simp only at hwf hpos ⊢
  subst hwf
  cases data with
  | nil => simp at hpos
  | cons b bytes => rfl

theorem stepState_data {σ : Type} (dec : σ → AVPacket → DecodeOutput × σ)
    (st : PacketState σ) (hwf : st.avpkt.size = (st.avpkt.data.length : Int))
    (hc : 0 < (dec st.cCtx st.avpkt).1.bytesConsumed)
    (hlt : (dec st.cCtx st.avpkt).1.bytesConsumed < st.avpkt.size) :
    (stepState dec st).avpkt.data =
      st.avpkt.data.drop (dec st.cCtx st.avpkt).1.bytesConsumed.toNat := by
  simp only [stepState, if_pos hlt]
  apply List.take_of_length_le
  simp only [List.length_drop]
  omega

theorem decodePacketLoop_calls {σ : Type} (dec : σ → AVPacket → DecodeOutput × σ)
    (canGrow : Nat → Nat → Bool) :
    ∀ (fuel n : Nat) (st : PacketState σ), st.avpkt.size = (st.avpkt.data.length : Int) →
      st.avpkt.data.length ≤ n → ∀ ret st1,
      decodePacketLoop dec canGrow fuel st = Outcome.returned (ret, st1) →
      st1.calls = st.calls ++ tailDecodes dec st.avpkt.stream_index n st.cCtx st.avpkt.data := by
  intro fuel
  induction fuel with
  | zero =>
    intro n st hwf hn ret st1 h
    rw [decodePacketLoop_zero] at h
    by_cases hs : st.avpkt.size > 0
    · simp [hs] at h
    · simp only [hs, if_false, Outcome.returned.injEq, Prod.mk.injEq] at h
      have hd : st.avpkt.data = [] := by
        apply List.eq_nil_of_length_eq_zero; omega
      rw [← h.2, hd, tailDecodes_nil, List.append_nil]
  | succ fuel ih =>
    intro n st hwf hn ret st1 h
    by_cases hs : st.avpkt.size ≤ 0
    · rw [decodePacketLoop_exit dec canGrow _ st hs] at h
      simp only [Outcome.returned.injEq, Prod.mk.injEq] at h
      have hd : st.avpkt.data = [] := by
        apply List.eq_nil_of_length_eq_zero; omega
      rw [← h.2, hd, tailDecodes_nil, List.append_nil]
    · have hpos : 0 < st.avpkt.size := by omega
      rw [decodePacketLoop_succ dec canGrow fuel st hpos] at h
      cases n with
      | zero => omega
      | succ n =>
        rw [tailDecodes_succ dec n st.cCtx st.avpkt hwf hpos]
        by_cases hc : (dec st.cCtx st.avpkt).1.bytesConsumed ≤ 0
        · rw [if_pos hc] at h
          simp only [Outcome.returned.injEq, Prod.mk.injEq] at h
          rw [← h.2, if_pos hc]
        · rw [if_neg hc] at h
          rw [if_neg hc]
          have hcpos : 0 < (dec st.cCtx st.avpkt).1.bytesConsumed := by omega
          by_cases hg : canGrow st.ab.stream.length
              ((dec st.cCtx st.avpkt).1.outputBufferSize / 2) = true
          · rw [if_pos hg] at h
            by_cases hlt : (dec st.cCtx st.avpkt).1.bytesConsumed < st.avpkt.size
            · rw [if_pos hlt]
              have hdata := stepState_data dec st hwf hcpos hlt
              have hstep := ih n (stepState dec st)
                (by rw [hdata]; simp only [stepState, List.length_drop]; omega)
                (by rw [hdata]; simp only [List.length_drop]; omega) ret st1 h
              rw [hstep, hdata]
              simp [stepState]
            · rw [if_neg hlt]
              rw [decodePacketLoop_exit dec canGrow fuel _ (by simp only [stepState]; omega)] at h
              simp only [Outcome.returned.injEq, Prod.mk.injEq] at h
              rw [← h.2]
              simp [stepState]
          · rw [if_neg hg] at h
            simp at h

/-- C10: the loop of `decodePacket` ends whatever the decoder answers: the run is never
cut short for lack of fuel, any larger fuel gives the same result, and a returning run
has made at most as many decoder calls as the packet had bytes, on packet sizes that
strictly decrease from call to call; it returns 0 or 1, and 1 exactly when a call
consumed no byte (or reported an error), in which case that call is the last one and the
packet size is left at 0. -/
theorem decodePacket_terminates {σ : Type} (dec : σ → AVPacket → DecodeOutput × σ)
    (canGrow : Nat → Nat → Bool) (cCtx : σ) (avpkt : AVPacket) (ab : AudioStream) :
    decodePacket dec canGrow cCtx avpkt ab ≠ Outcome.diverged ∧
    (∀ fuel, avpkt.size.toNat ≤ fuel →
      decodePacketLoop dec canGrow fuel ⟨cCtx, avpkt, ab, []⟩ =
        decodePacket dec canGrow cCtx avpkt ab) ∧
    (∀ ret st, decodePacket dec canGrow cCtx avpkt ab = Outcome.returned (ret, st) →
      st.calls.length ≤ avpkt.size.toNat ∧
      st.calls.Pairwise (fun c d => d.avpkt.size < c.avpkt.size) ∧
      (∀ c ∈ st.calls, 0 < c.avpkt.size ∧ c.avpkt.size ≤ avpkt.size) ∧
      (ret = 0 ∨ ret = 1) ∧
      (ret = 1 ↔ ∃ c ∈ st.calls, c.out.bytesConsumed ≤ 0) ∧
      (ret = 1 → st.avpkt.size = 0 ∧ ∃ pre c, st.calls = pre ++ [c] ∧
        c.out.bytesConsumed ≤ 0 ∧ ∀ d ∈ pre, 0 < d.out.bytesConsumed)) := by
  have hrun := decodePacketLoop_run dec canGrow avpkt.size.toNat ⟨cCtx, avpkt, ab, []⟩
    (le_refl _)
  refine ⟨?_, ?_, ?_⟩
  · rw [decodePacket]
    rcases hrun with hthrow | ⟨ret1, st1, new, hrun, -⟩
    · rw [hthrow]; simp
    · rw [hrun]; simp
  · intro fuel hfuel
    exact decodePacketLoop_fuel dec canGrow fuel avpkt.size.toNat ⟨cCtx, avpkt, ab, []⟩ hfuel
      (le_refl _)
  · intro ret st h
    rw [decodePacket] at h
    rcases hrun with hthrow | ⟨ret1, st1, new, hrun, hp⟩
    · rw [h] at hthrow; simp at hthrow
    · rw [h] at hrun
      simp only [Outcome.returned.injEq, Prod.mk.injEq] at hrun
      obtain ⟨rfl, rfl⟩ := hrun
      have hc := hp.calls_eq
      simp only [List.nil_append] at hc
      rw [hc]
      refine ⟨hp.length_le, hp.decreasing, hp.size_bound, ?_, ?_, ?_⟩
      · rcases hp.ret_cases with ⟨h0, -⟩ | ⟨h1, -⟩
        · exact Or.inl h0
        · exact Or.inr h1
      · constructor
        · intro hret
          rcases hp.ret_cases with ⟨h0, -⟩ | ⟨-, -, pre, c, hnew, hcle, -⟩
          · omega
          · exact ⟨c, by rw [hnew]; simp, hcle⟩
        · rintro ⟨c, hcm, hcle⟩
          rcases hp.ret_cases with ⟨-, hall⟩ | ⟨h1, -⟩
          · have := hall c hcm
            omega
          · exact h1
      · intro hret
        rcases hp.ret_cases with ⟨h0, -⟩ | ⟨-, hz, hex⟩
        · omega
        · exact ⟨hz, hex⟩

theorem decodePacket_terminates_witness :
    decodePacket byteDecoder grantAll () examplePacket ⟨44100, 2, [1]⟩ =
      Outcome.returned (1, exampleState) ∧
    exampleState.calls.length ≤ examplePacket.size.toNat ∧
    exampleState.calls.Pairwise (fun c d => d.avpkt.size < c.avpkt.size) ∧
    (∀ c ∈ exampleState.calls, 0 < c.avpkt.size ∧ c.avpkt.size ≤ examplePacket.size) ∧
    ((1 : Int) = 0 ∨ (1 : Int) = 1) ∧
    ((1 : Int) = 1 ↔ ∃ c ∈ exampleState.calls, c.out.bytesConsumed ≤ 0) ∧
    ((1 : Int) = 1 → exampleState.avpkt.size = 0 ∧ ∃ pre c, exampleState.calls = pre ++ [c] ∧
      c.out.bytesConsumed ≤ 0 ∧ ∀ d ∈ pre, 0 < d.out.bytesConsumed) :=
  ⟨by decide,
    (decodePacket_terminates byteDecoder grantAll () examplePacket ⟨44100, 2, [1]⟩).2.2 1
      exampleState (by decide)⟩

/-! ### Granted growths, C5, and the packet loop of the file -/

theorem decodePacket_cases {σ : Type} (dec : σ → AVPacket → DecodeOutput × σ)
    (canGrow : Nat → Nat → Bool) (cCtx : σ) (avpkt : AVPacket) (ab : AudioStream) :
    decodePacket dec canGrow cCtx avpkt ab = Outcome.thrown Exception.AllocationFailure ∨
    ∃ ret ps, decodePacket dec canGrow cCtx avpkt ab = Outcome.returned (ret, ps) ∧
      PacketRun dec ⟨cCtx, avpkt, ab, []⟩ ret ps ps.calls := by
  rcases decodePacketLoop_run dec canGrow avpkt.size.toNat ⟨cCtx, avpkt, ab, []⟩ (le_refl _)
    with hthrow | ⟨ret, st1, new, hrun, hp⟩
  · exact Or.inl hthrow
  · right
    refine ⟨ret, st1, hrun, ?_⟩
    have hc := hp.calls_eq
    simp only [List.nil_append] at hc
    rw [hc]
    exact hp

theorem decodePacketLoop_granted {σ : Type} (dec : σ → AVPacket → DecodeOutput × σ)
    (canGrow : Nat → Nat → Bool) (hgrow : ∀ a b, canGrow a b = true) :
    ∀ (fuel : Nat) (st : PacketState σ) (e : Exception),
      decodePacketLoop dec canGrow fuel st ≠ Outcome.thrown e := by
  intro fuel
  induction fuel with
  | zero =>
    intro st e
    rw [decodePacketLoop_zero]
    split <;> simp
  | succ fuel ih =>
    intro st e
    by_cases hs : st.avpkt.size ≤ 0
    · rw [decodePacketLoop_exit dec canGrow _ st hs]; simp
    · rw [decodePacketLoop_succ dec canGrow fuel st (by omega)]
      by_cases hc : (dec st.cCtx st.avpkt).1.bytesConsumed ≤ 0
      · rw [if_pos hc]; simp
      · rw [if_neg hc, if_pos (hgrow _ _)]
        exact ih _ e

theorem decodePacket_granted {σ : Type} (dec : σ → AVPacket → DecodeOutput × σ)
    (canGrow : Nat → Nat → Bool) (hgrow : ∀ a b, canGrow a b = true) (cCtx : σ)
    (avpkt : AVPacket) (ab : AudioStream) :
    ∃ ret ps, decodePacket dec canGrow cCtx avpkt ab = Outcome.returned (ret, ps) ∧
      PacketRun dec ⟨cCtx, avpkt, ab, []⟩ ret ps ps.calls := by
  rcases decodePacket_cases dec canGrow cCtx avpkt ab with hthrow | h
  · exact absurd hthrow (decodePacketLoop_granted dec canGrow hgrow _ _ _)
  · exact h

theorem packetRun_ab {σ : Type} {dec : σ → AVPacket → DecodeOutput × σ} {cCtx : σ}
    {avpkt : AVPacket} {ab : AudioStream} {ret : Int} {ps : PacketState σ}
    (hp : PacketRun dec ⟨cCtx, avpkt, ab, []⟩ ret ps ps.calls) :
    ps.ab = ⟨ab.frameRate, ab.channels, ab.stream ++ decodedSamples ps.calls⟩ := by
  have h1 := hp.frameRate_eq
  have h2 := hp.channels_eq
  have h3 := hp.stream_eq
  simp only at h1 h2 h3
  rw [← h3, ← h1, ← h2]

/-- C5: on a packet as the container delivers it (`size` is the length of `data`),
`decodePacket` returns whenever the heap grants the growths, and a returning
`decodePacket` has called the decoder first on the whole packet and then, after every call
that consumed fewer bytes than the packet then held, on the unconsumed tail (the bytes
from offset `bytesConsumed` on, in order), until a call consumed the rest or consumed no
byte; and the audio stream is the one before, followed by the outputs of the calls that
consumed bytes, in call order, each 16-bit value as the float of the same value; rate and
channel count are untouched. -/
theorem decodePacket_decodes_tails {σ : Type} (dec : σ → AVPacket → DecodeOutput × σ)
    (canGrow : Nat → Nat → Bool) (cCtx : σ) (avpkt : AVPacket) (ab : AudioStream)
    (hwf : avpkt.size = (avpkt.data.length : Int)) :
    ((∀ a b, canGrow a b = true) →
      ∃ ret st, decodePacket dec canGrow cCtx avpkt ab = Outcome.returned (ret, st)) ∧
    (∀ ret st, decodePacket dec canGrow cCtx avpkt ab = Outcome.returned (ret, st) →
      st.calls = tailDecodes dec avpkt.stream_index avpkt.data.length cCtx avpkt.data ∧
      st.ab = ⟨ab.frameRate, ab.channels, ab.stream ++ decodedSamples st.calls⟩ ∧
      decodedSamples st.calls =
        ((st.calls.filter (fun c => decide (0 < c.out.bytesConsumed))).map (fun c =>
          (List.range (c.out.outputBufferSize / 2)).map
            (fun i => c.out.outputBuffer.getD i 0))).flatten) := by
  constructor
  · intro hgrow
    obtain ⟨ret, ps, h, -⟩ := decodePacket_granted dec canGrow hgrow cCtx avpkt ab
    exact ⟨ret, ps, h⟩
  · intro ret st h
    have hcalls := decodePacketLoop_calls dec canGrow avpkt.size.toNat avpkt.data.length
      ⟨cCtx, avpkt, ab, []⟩ hwf (le_refl _) ret st h
    simp only [List.nil_append] at hcalls
    refine ⟨hcalls, ?_, ?_⟩
    · rcases decodePacket_cases dec canGrow cCtx avpkt ab with hthrow | ⟨ret1, ps, hdec, hp⟩
      · rw [h] at hthrow
        simp at hthrow
      · rw [h] at hdec
        simp only [Outcome.returned.injEq, Prod.mk.injEq] at hdec
        obtain ⟨-, rfl⟩ := hdec
        exact packetRun_ab hp
    · generalize st.calls = l
      induction l with
      | nil => rfl
      | cons c l ih =>
        by_cases hc : 0 < c.out.bytesConsumed
        · simp [decodedSamples, hc, ih, samplesOf, int16ToFloat, List.filter_cons]
        · simp [decodedSamples, hc, ih, List.filter_cons]

theorem decodePacket_decodes_tails_witness :
    (examplePacket.size = (examplePacket.data.length : Int) ∧
      decodePacket byteDecoder grantAll () examplePacket ⟨44100, 2, [1]⟩ =
        Outcome.returned (1, exampleState)) ∧
    (exampleState.calls = tailDecodes byteDecoder examplePacket.stream_index
        examplePacket.data.length () examplePacket.data ∧
      exampleState.ab = ⟨44100, 2, [1] ++ decodedSamples exampleState.calls⟩ ∧
      decodedSamples exampleState.calls =
        ((exampleState.calls.filter (fun c => decide (0 < c.out.bytesConsumed))).map (fun c =>
          (List.range (c.out.outputBufferSize / 2)).map
            (fun i => c.out.outputBuffer.getD i 0))).flatten) :=
  ⟨⟨by decide, by decide⟩,
    (decodePacket_decodes_tails byteDecoder grantAll () examplePacket ⟨44100, 2, [1]⟩
      (by decide)).2 1 exampleState (by decide)⟩

theorem readFrames_granted {σ : Type} (env : LibAv σ) (audioStream : Int)
    (hgrow : ∀ a b, env.canGrow a b = true) :
    ∀ (packets : List AVPacket) (st : FileState σ),
      (st.badPacketCount + undecodableCount
          (packetOutcomes env audioStream packets st.cCtx st.astrm) ≤ 100 →
        ∃ st1, readFrames env audioStream packets st = Outcome.returned st1 ∧
          st1.astrm = ⟨st.astrm.frameRate, st.astrm.channels, st.astrm.stream ++
            outcomeSamples (packetOutcomes env audioStream packets st.cCtx st.astrm)⟩ ∧
          st1.badPacketCount = st.badPacketCount + undecodableCount
            (packetOutcomes env audioStream packets st.cCtx st.astrm)) ∧
      (st.badPacketCount ≤ 100 → 100 < st.badPacketCount + undecodableCount
          (packetOutcomes env audioStream packets st.cCtx st.astrm) →
        readFrames env audioStream packets st =
          Outcome.thrown Exception.ExcessiveCorruptionFailure) := by
  intro packets
  induction packets with
  | nil =>
    intro st
    constructor
    · intro _
      exact ⟨st, rfl, by simp [packetOutcomes, outcomeSamples],
        by simp [packetOutcomes, undecodableCount]⟩
    · intro h1 h2
      simp [packetOutcomes, undecodableCount] at h2
      omega
  | cons avpkt rest ih =>
    intro st
    by_cases hidx : avpkt.stream_index = audioStream
    · obtain ⟨ret, ps, hdec, hp⟩ := decodePacket_granted env.avcodec_decode_audio3 env.canGrow
        hgrow st.cCtx avpkt st.astrm
      have hab := packetRun_ab hp
      have hout : packetOutcomes env audioStream (avpkt :: rest) st.cCtx st.astrm =
          (ret, ps) :: packetOutcomes env audioStream rest ps.cCtx ps.ab := by
        simp only [packetOutcomes, if_pos hidx, hdec]
      rw [hout]
      by_cases hret : ret ≠ 0
      · simp only [undecodableCount, if_pos hret, outcomeSamples]
        constructor
        · intro hle
          have hlt : st.badPacketCount < 100 := by push_cast at hle; omega
          have hrf : readFrames env audioStream (avpkt :: rest) st =
              readFrames env audioStream rest ⟨ps.cCtx, ps.ab, st.badPacketCount + 1⟩ := by
            simp only [readFrames, if_pos hidx, hdec, if_pos hret, if_pos hlt]
          obtain ⟨st1, h1, h2, h3⟩ := (ih ⟨ps.cCtx, ps.ab, st.badPacketCount + 1⟩).1
            (by simp only; push_cast at hle ⊢; omega)
          refine ⟨st1, by rw [hrf]; exact h1, ?_, ?_⟩
          · rw [h2]; simp only [hab, List.append_assoc]
          · rw [h3]; simp only; push_cast; omega
        · intro hle hgt
          by_cases hlt : st.badPacketCount < 100
          · have hrf : readFrames env audioStream (avpkt :: rest) st =
                readFrames env audioStream rest ⟨ps.cCtx, ps.ab, st.badPacketCount + 1⟩ := by
              simp only [readFrames, if_pos hidx, hdec, if_pos hret, if_pos hlt]
            rw [hrf]
            exact (ih ⟨ps.cCtx, ps.ab, st.badPacketCount + 1⟩).2 (by simp only; omega)
              (by simp only; push_cast at hgt ⊢; omega)
          · simp only [readFrames, if_pos hidx, hdec, if_pos hret, if_neg hlt]
      · have hrf : readFrames env audioStream (avpkt :: rest) st =
            readFrames env audioStream rest ⟨ps.cCtx, ps.ab, st.badPacketCount⟩ := by
          simp only [readFrames, if_pos hidx, hdec, if_neg hret]
        simp only [undecodableCount, if_neg hret, outcomeSamples]
        rw [hrf]
        constructor
        · intro hle
          obtain ⟨st1, h1, h2, h3⟩ := (ih ⟨ps.cCtx, ps.ab, st.badPacketCount⟩).1 hle
          refine ⟨st1, h1, ?_, h3⟩
          rw [h2]; simp only [hab, List.append_assoc]
        · intro hle hgt
          exact (ih ⟨ps.cCtx, ps.ab, st.badPacketCount⟩).2 hle hgt
    · have hout : packetOutcomes env audioStream (avpkt :: rest) st.cCtx st.astrm =
          packetOutcomes env audioStream rest st.cCtx st.astrm := by
        simp only [packetOutcomes, if_neg hidx]
      have hrf : readFrames env audioStream (avpkt :: rest) st =
          readFrames env audioStream rest st := by
        simp only [readFrames, if_neg hidx]
      rw [hout, hrf]
      exact ih st

theorem decodeFile_ready {σ : Type} (env : LibAv σ) (res : Resources)
    (h : ReachesPacketLoop env) :
    LibAvDecoder.decodeFile env res =
      match readFrames env (findAudioStream env.streams) env.packets
          ⟨env.cCtx, initialStream env, 0⟩ with
      | Outcome.thrown e =>
        (((res.acquire Handle.container).acquire Handle.decoder).newBuffer, Outcome.thrown e)
      | Outcome.diverged =>
        (((res.acquire Handle.container).acquire Handle.decoder).newBuffer, Outcome.diverged)
      | Outcome.returned st =>
        (((((res.acquire Handle.container).acquire Handle.decoder).newBuffer).release
          Handle.decoder).release Handle.container, Outcome.returned st.astrm) := by
  obtain ⟨h1, h2, h3, h4, h5⟩ := h
  simp only [LibAvDecoder.decodeFile, h1, ne_eq, not_true_eq_false, if_false, not_lt.mpr h2,
    h3, h4, not_lt.mpr h5, Bool.true_eq_false]
  rfl

theorem decodeFile_returned {σ : Type} (env : LibAv σ) (res : Resources) (b : AudioStream)
    (h : (LibAvDecoder.decodeFile env res).2 = Outcome.returned b) :
    ReachesPacketLoop env ∧
    ∃ st, readFrames env (findAudioStream env.streams) env.packets
      ⟨env.cCtx, initialStream env, 0⟩ = Outcome.returned st ∧ st.astrm = b := by
  have hready : ReachesPacketLoop env := by
    unfold ReachesPacketLoop
    unfold LibAvDecoder.decodeFile at h
    by_cases h1 : env.avformat_open_input ≠ 0
    · simp [h1] at h
    · rw [if_neg h1] at h
      by_cases h2 : env.av_find_stream_info < 0
      · simp [h2] at h
      · simp only [h2, if_false] at h
        by_cases h3 : findAudioStream env.streams = -1
        · simp [h3] at h
        · simp only [h3, if_false] at h
          by_cases h4 : env.avcodec_find_decoder (selectedStream env).codec_id = false
          · simp [h4] at h
          · simp only [h4, if_false] at h
            by_cases h5 : env.avcodec_open2 < 0
            · simp [h5] at h
            · refine ⟨not_not.mp h1, not_lt.mp h2, h3, ?_, not_lt.mp h5⟩
              simpa using h4
  refine ⟨hready, ?_⟩
  rw [decodeFile_ready env res hready] at h
  cases hrf : readFrames env (findAudioStream env.streams) env.packets
      ⟨env.cCtx, initialStream env, 0⟩ with
  | returned st =>
    rw [hrf] at h
    simp only [Outcome.returned.injEq] at h
    exact ⟨st, rfl, h⟩
  | thrown e => rw [hrf] at h; simp at h
  | diverged => rw [hrf] at h; simp at h

theorem readFrames_append {σ : Type} (env : LibAv σ) (audioStream : Int)
    (rest : List AVPacket) :
    ∀ (pre : List AVPacket) (st : FileState σ),
      readFrames env audioStream (pre ++ rest) st =
        match readFrames env audioStream pre st with
        | Outcome.returned st1 => readFrames env audioStream rest st1
        | Outcome.thrown e => Outcome.thrown e
        | Outcome.diverged => Outcome.diverged := by
  intro pre
  induction pre with
  | nil => intro st; rfl
  | cons avpkt pre ih =>
    intro st
    simp only [List.cons_append, readFrames]
    by_cases hidx : avpkt.stream_index = audioStream
    · simp only [if_pos hidx]
      cases hdec : decodePacket env.avcodec_decode_audio3 env.canGrow st.cCtx avpkt st.astrm with
      | returned r =>
        obtain ⟨ret, ps⟩ := r
        simp only
        by_cases hret : ret ≠ 0
        · simp only [if_pos hret]
          by_cases hlt : st.badPacketCount < 100
          · simp only [if_pos hlt]; exact ih _
          · simp only [if_neg hlt]
        · simp only [if_neg hret]; exact ih _
      | thrown e => rfl
      | diverged => rfl
    · simp only [if_neg hidx]; exact ih st

theorem readFrames_returned {σ : Type} (env : LibAv σ) (audioStream : Int) :
    ∀ (packets : List AVPacket) (st st1 : FileState σ),
      readFrames env audioStream packets st = Outcome.returned st1 →
      st1.astrm.frameRate = st.astrm.frameRate ∧ st1.astrm.channels = st.astrm.channels ∧
      ∃ calls, st1.astrm.stream = st.astrm.stream ++ decodedSamples calls ∧
        ∀ c ∈ calls, ∃ s, c.out = (env.avcodec_decode_audio3 s c.avpkt).1 := by
  intro packets
  induction packets with
  | nil =>
    intro st st1 h
    simp only [readFrames, Outcome.returned.injEq] at h
    subst h
    exact ⟨rfl, rfl, [], by simp [decodedSamples], by simp⟩
  | cons avpkt rest ih =>
    intro st st1 h
    by_cases hidx : avpkt.stream_index = audioStream
    · rcases decodePacket_cases env.avcodec_decode_audio3 env.canGrow st.cCtx avpkt st.astrm
        with hthrow | ⟨ret, ps, hdec, hp⟩
      · simp [readFrames, hidx, hthrow] at h
      · have hab := packetRun_ab hp
        have hfrom := hp.from_dec
        have key : ∀ n, readFrames env audioStream rest ⟨ps.cCtx, ps.ab, n⟩ =
            Outcome.returned st1 →
            st1.astrm.frameRate = st.astrm.frameRate ∧
            st1.astrm.channels = st.astrm.channels ∧
            ∃ calls, st1.astrm.stream = st.astrm.stream ++ decodedSamples calls ∧
              ∀ c ∈ calls, ∃ s, c.out = (env.avcodec_decode_audio3 s c.avpkt).1 := by
          intro n hn
          obtain ⟨h1, h2, calls, h3, h4⟩ := ih _ _ hn
          simp only [hab] at h1 h2 h3
          refine ⟨h1, h2, ps.calls ++ calls, ?_, ?_⟩
          · rw [h3, List.append_assoc]
            congr 1
            clear hp hfrom hab hdec
            generalize ps.calls = l
            induction l with
            | nil => rfl
            | cons c l ihl =>
              simp only [List.cons_append, decodedSamples]
              split <;> simp [ihl]
          · intro c hc
            rcases List.mem_append.mp hc with hc | hc
            · exact hfrom c hc
            · exact h4 c hc
        simp only [readFrames, if_pos hidx, hdec] at h
        by_cases hret : ret ≠ 0
        · simp only [if_pos hret] at h
          by_cases hlt : st.badPacketCount < 100
          · simp only [if_pos hlt] at h; exact key _ h
          · simp [if_neg hlt] at h
        · simp only [if_neg hret] at h; exact key _ h
    · simp only [readFrames, if_neg hidx] at h
      exact ih st st1 h

/-! ### C1: the bad packet threshold -/

theorem badPacketFile_audioStream (n : Nat) :
    findAudioStream (badPacketFile n).streams = 0 := by
  show findAudioStream [⟨AVMediaType.AVMEDIA_TYPE_AUDIO, 1, 44100, 2⟩] = 0
  decide

theorem badPacketFile_initialStream (n : Nat) :
    initialStream (badPacketFile n) = ⟨44100, 2, []⟩ := by
  simp only [initialStream, selectedStream, badPacketFile_audioStream]
  rfl

theorem badPacketFile_ready (n : Nat) : ReachesPacketLoop (badPacketFile n) := by
  refine ⟨rfl, ?_, ?_, rfl, ?_⟩
  · show (0 : Int) ≤ 0
    decide
  · rw [badPacketFile_audioStream]
    decide
  · show (0 : Int) ≤ 0
    decide

theorem badPacketFile_outcomes (n : Nat) :
    fileOutcomes (badPacketFile n) = List.replicate n (1, badPacketState) := by
  have hdec : decodePacket byteDecoder grantAll () badPacket ⟨44100, 2, []⟩ =
      Outcome.returned (1, badPacketState) := by decide
  have hidx : badPacket.stream_index = findAudioStream (badPacketFile n).streams := by
    rw [badPacketFile_audioStream]
    rfl
  have key : ∀ k, packetOutcomes (badPacketFile n) (findAudioStream (badPacketFile n).streams)
      (List.replicate k badPacket) () ⟨44100, 2, []⟩ = List.replicate k (1, badPacketState) := by
    intro k
    induction k with
    | zero => rfl
    | succ k ih =>
      rw [List.replicate_succ, packetOutcomes, if_pos hidx]
      show (match decodePacket byteDecoder grantAll () badPacket ⟨44100, 2, []⟩ with
        | Outcome.returned (ret, ps) => (ret, ps) :: packetOutcomes (badPacketFile n)
            (findAudioStream (badPacketFile n).streams) (List.replicate k badPacket) ps.cCtx ps.ab
        | _ => []) = _
      rw [hdec]
      show (1, badPacketState) :: packetOutcomes (badPacketFile n)
        (findAudioStream (badPacketFile n).streams) (List.replicate k badPacket) ()
        ⟨44100, 2, []⟩ = _
      rw [ih, List.replicate_succ]
  unfold fileOutcomes
  rw [badPacketFile_initialStream]
  exact key n

theorem undecodableCount_replicate (n : Nat) :
    undecodableCount (List.replicate n ((1 : Int), badPacketState)) = n := by
  induction n with
  | zero => rfl
  | succ n ih => rw [List.replicate_succ, undecodableCount, if_pos (by decide), ih]

theorem outcomeSamples_replicate (n : Nat) :
    outcomeSamples (List.replicate n ((1 : Int), badPacketState)) = [] := by
  induction n with
  | zero => rfl
  | succ n ih =>
    rw [List.replicate_succ, outcomeSamples, ih]
    decide

theorem decodeFile_granted {σ : Type} (env : LibAv σ) (res : Resources)
    (hready : ReachesPacketLoop env) (hgrow : ∀ a b, env.canGrow a b = true) :
    (undecodableCount (fileOutcomes env) ≤ 100 →
      (LibAvDecoder.decodeFile env res).2 = Outcome.returned
        ⟨(selectedStream env).sample_rate, (selectedStream env).channels,
          outcomeSamples (fileOutcomes env)⟩) ∧
    (100 < undecodableCount (fileOutcomes env) →
      (LibAvDecoder.decodeFile env res).2 =
        Outcome.thrown Exception.ExcessiveCorruptionFailure) := by
  have hrf := readFrames_granted env (findAudioStream env.streams) hgrow env.packets
    ⟨env.cCtx, initialStream env, 0⟩
  rw [decodeFile_ready env res hready]
  constructor
  · intro hle
    obtain ⟨st1, h1, h2, -⟩ := hrf.1 (by
      simp only [zero_add]
      exact_mod_cast hle)
    rw [h1]
    simp only [h2, initialStream, List.nil_append]
    rfl
  · intro hgt
    have := hrf.2 (by simp) (by
      simp only [zero_add]
      exact_mod_cast hgt)
    rw [this]

/-- C1: at the failing input, a file of exactly 100 undecodable audio packets, `decodeFile`
does not abort: all 100 packets are counted bad and the call returns the (empty) audio
stream. The abort comes with the next bad packet: 101 of them end the call with
`ExcessiveCorruptionFailure`. -/
theorem hundred_bad_packets_are_accepted :
    undecodableCount (fileOutcomes (badPacketFile 100)) = 100 ∧
    (LibAvDecoder.decodeFile (badPacketFile 100) ⟨[], 0⟩).2 =
      Outcome.returned ⟨44100, 2, []⟩ ∧
    undecodableCount (fileOutcomes (badPacketFile 101)) = 101 ∧
    (LibAvDecoder.decodeFile (badPacketFile 101) ⟨[], 0⟩).2 =
      Outcome.thrown Exception.ExcessiveCorruptionFailure := by
  have hcount : ∀ n, undecodableCount (fileOutcomes (badPacketFile n)) = n := by
    intro n
    rw [badPacketFile_outcomes, undecodableCount_replicate]
  refine ⟨hcount 100, ?_, hcount 101, ?_⟩
  · have h := (decodeFile_granted (badPacketFile 100) ⟨[], 0⟩ (badPacketFile_ready 100)
      (fun _ _ => rfl)).1 (by rw [hcount])
    rw [h, badPacketFile_outcomes, outcomeSamples_replicate]
    rfl
  · exact (decodeFile_granted (badPacketFile 101) ⟨[], 0⟩ (badPacketFile_ready 101)
      (fun _ _ => rfl)).2 (by rw [hcount]; decide)

/-! ### C2: the samples of a decoded file -/

theorem outcomeSamples_eq_good {σ : Type} :
    ∀ outs : List (Int × PacketState σ),
      (∀ o ∈ outs, o.1 ≠ 0 → decodedSamples o.2.calls = []) →
      outcomeSamples outs = goodPacketSamples outs := by
  intro outs
  induction outs with
  | nil => intro _; rfl
  | cons o rest ih =>
    intro h
    have hrest := ih (fun o1 ho1 => h o1 (List.mem_cons_of_mem _ ho1))
    by_cases ho : o.1 = 0
    · simp only [outcomeSamples, goodPacketSamples, if_pos ho, hrest]
    · simp only [outcomeSamples, goodPacketSamples, if_neg ho, hrest,
        h o (List.mem_cons_self _ _) ho, List.nil_append]

/-- C2 as stated fails on `mixedFile`: one of its three audio packets is undecodable, the
heap grants every growth, and `decodeFile` returns the samples 2, 3, 5, 4, whereas the
samples decoded from the good packets are 2, 4: the samples 3 and 5, decoded from the
undecodable packet before its failing call, stay in the stream. -/
theorem undecodable_packet_leaves_samples :
    undecodableCount (fileOutcomes mixedFile) ≤ 99 ∧
    (LibAvDecoder.decodeFile mixedFile ⟨[], 0⟩).2 = Outcome.returned ⟨44100, 2, [2, 3, 5, 4]⟩ ∧
    goodPacketSamples (fileOutcomes mixedFile) = [2, 4] ∧
    (LibAvDecoder.decodeFile mixedFile ⟨[], 0⟩).2 ≠
      Outcome.returned ⟨44100, 2, goodPacketSamples (fileOutcomes mixedFile)⟩ := by
  decide

/-- C2, amended: when no fatal condition precedes the packet loop, the heap grants every
growth and at most 99 audio packets are undecodable, `decodeFile` returns, and the
returned stream has the rate and channel count of the selected stream and holds exactly
the outputs of the decoder calls on audio packets that consumed bytes, in packet and call
order: packets of other streams add nothing, and an undecodable packet adds the samples
decoded before its failing call. When no undecodable packet decoded a sample, these are
the samples of the good packets. -/
theorem decodeFile_keeps_decoded_samples {σ : Type} (env : LibAv σ) (res : Resources)
    (hready : ReachesPacketLoop env) (hgrow : ∀ a b, env.canGrow a b = true)
    (hbad : undecodableCount (fileOutcomes env) ≤ 99) :
    (LibAvDecoder.decodeFile env res).2 = Outcome.returned
      ⟨(selectedStream env).sample_rate, (selectedStream env).channels,
        outcomeSamples (fileOutcomes env)⟩ ∧
    ((∀ o ∈ fileOutcomes env, o.1 ≠ 0 → decodedSamples o.2.calls = []) →
      outcomeSamples (fileOutcomes env) = goodPacketSamples (fileOutcomes env)) :=
  ⟨(decodeFile_granted env res hready hgrow).1 (by omega),
    outcomeSamples_eq_good (fileOutcomes env)⟩

theorem decodeFile_keeps_decoded_samples_witness :
    (ReachesPacketLoop mixedFile ∧ (∀ a b, mixedFile.canGrow a b = true) ∧
      undecodableCount (fileOutcomes mixedFile) ≤ 99) ∧
    ((LibAvDecoder.decodeFile mixedFile ⟨[], 0⟩).2 = Outcome.returned
      ⟨(selectedStream mixedFile).sample_rate, (selectedStream mixedFile).channels,
        outcomeSamples (fileOutcomes mixedFile)⟩ ∧
      ((∀ o ∈ fileOutcomes mixedFile, o.1 ≠ 0 → decodedSamples o.2.calls = []) →
        outcomeSamples (fileOutcomes mixedFile) = goodPacketSamples (fileOutcomes mixedFile))) :=
  ⟨⟨⟨by decide, by decide, by decide, by decide, by decide⟩, fun _ _ => rfl, by decide⟩,
    decodeFile_keeps_decoded_samples mixedFile ⟨[], 0⟩
      ⟨by decide, by decide, by decide, by decide, by decide⟩ (fun _ _ => rfl) (by decide)⟩

/-! ### C3 and C4: the short read, the stream scan -/

theorem toInt32_of_lt (n : Nat) (h : n < 2147483648) : toInt32 (n : Int) = (n : Int) := by
  unfold toInt32
  omega

theorem toInt32_le (n : Nat) : toInt32 (n : Int) ≤ (n : Int) := by
  unfold toInt32
  omega

theorem sndfile_decodeFile_eq {α : Type} (env : SndFile α) (res : Resources) (info : SF_INFO)
    (hopen : env.sf_open = some info)
    (hgrow : env.canGrow (info.frames * info.channels) = true) :
    LibSndFileDecoder.decodeFile env res =
      if toInt32 ((env.fileData.take (info.frames * info.channels)).length : Int) <
          ((info.frames * info.channels : Nat) : Int) then
        ((res.acquire Handle.soundFile).newBuffer,
          Outcome.thrown Exception.IncompleteReadFailure)
      else
        (((res.acquire Handle.soundFile).newBuffer).release Handle.soundFile,
          Outcome.returned ⟨info.samplerate, info.channels,
            env.fileData.take (info.frames * info.channels) ++
              (List.replicate (info.frames * info.channels) env.zero).drop
                (env.fileData.take (info.frames * info.channels)).length⟩) := by
  simp only [LibSndFileDecoder.decodeFile, hopen, AudioBuffer.addSamples, AudioBuffer.empty,
    AudioBuffer.setFrameRate, AudioBuffer.setChannels, hgrow, if_true, List.nil_append,
    AudioBuffer.getSampleCount, List.length_replicate, sf_read_float]
  have hlen : (env.fileData.take (info.frames * info.channels) ++
      (List.replicate (info.frames * info.channels) env.zero).drop
        (env.fileData.take (info.frames * info.channels)).length).length =
      info.frames * info.channels := by
    simp only [List.length_append, List.length_take, List.length_drop, List.length_replicate]
    omega
  rw [hlen]

/-- C3: once the sound file is open and the buffer of `frames * channels` samples is
granted, `decodeFile` throws `IncompleteReadFailure` whenever the bulk read returns fewer
samples than that; and when the bulk read returns exactly that many (a count that fits
the `int` it is stored in), `decodeFile` returns a buffer of `frames * channels` samples,
the samples read, with the rate and channel count of the file. -/
theorem short_read_is_rejected {α : Type} (env : SndFile α) (res : Resources)
    (info : SF_INFO) (hopen : env.sf_open = some info)
    (hgrow : env.canGrow (info.frames * info.channels) = true) :
    ((sf_read_float env (List.replicate (info.frames * info.channels) env.zero)
        (info.frames * info.channels)).2 < info.frames * info.channels →
      (LibSndFileDecoder.decodeFile env res).2 =
        Outcome.thrown Exception.IncompleteReadFailure) ∧
    ((sf_read_float env (List.replicate (info.frames * info.channels) env.zero)
        (info.frames * info.channels)).2 = info.frames * info.channels →
      info.frames * info.channels < 2147483648 →
      ∃ ab, (LibSndFileDecoder.decodeFile env res).2 = Outcome.returned ab ∧
        ab.getSampleCount = info.frames * info.channels ∧
        ab.buffer = env.fileData.take (info.frames * info.channels) ∧
        ab.frameRate = info.samplerate ∧ ab.channels = info.channels) := by
  rw [sndfile_decodeFile_eq env res info hopen hgrow]
  simp only [sf_read_float]
  constructor
  · intro hlt
    have := toInt32_le (env.fileData.take (info.frames * info.channels)).length
    rw [if_pos (by omega)]
  · intro heq hfit
    have := toInt32_of_lt (env.fileData.take (info.frames * info.channels)).length (by omega)
    rw [if_neg (by omega)]
    refine ⟨_, rfl, ?_, ?_, rfl, rfl⟩
    · simp only [AudioBuffer.getSampleCount, List.length_append, List.length_drop,
        List.length_replicate]
      omega
    · simp only [heq, List.drop_replicate, Nat.sub_self, List.replicate_zero, List.append_nil]

theorem short_read_is_rejected_witness :
    ((shortFile.sf_open = some ⟨2, 44100, 1⟩ ∧ shortFile.canGrow (2 * 1) = true ∧
        (sf_read_float shortFile (List.replicate (2 * 1) shortFile.zero) (2 * 1)).2 < 2 * 1) ∧
      (LibSndFileDecoder.decodeFile shortFile ⟨[], 0⟩).2 =
        Outcome.thrown Exception.IncompleteReadFailure) ∧
    ((wholeFile.sf_open = some ⟨2, 44100, 2⟩ ∧ wholeFile.canGrow (2 * 2) = true ∧
        (sf_read_float wholeFile (List.replicate (2 * 2) wholeFile.zero) (2 * 2)).2 = 2 * 2 ∧
        2 * 2 < 2147483648) ∧
      ∃ ab, (LibSndFileDecoder.decodeFile wholeFile ⟨[], 0⟩).2 = Outcome.returned ab ∧
        ab.getSampleCount = 2 * 2 ∧ ab.buffer = wholeFile.fileData.take (2 * 2) ∧
        ab.frameRate = 44100 ∧ ab.channels = 2) :=
  ⟨⟨⟨rfl, rfl, by decide⟩,
      (short_read_is_rejected shortFile ⟨[], 0⟩ ⟨2, 44100, 1⟩ rfl rfl).1 (by decide)⟩,
    ⟨⟨rfl, rfl, by decide, by decide⟩,
      (short_read_is_rejected wholeFile ⟨[], 0⟩ ⟨2, 44100, 2⟩ rfl rfl).2 (by decide)
        (by decide)⟩⟩

theorem scanStreams_found :
    ∀ (streams : List AVStream) (k : Int) (i : Nat) (s : AVStream),
      streams[i]? = some s → s.codec_type = AVMediaType.AVMEDIA_TYPE_AUDIO →
      (∀ j t, j < i → streams[j]? = some t → t.codec_type ≠ AVMediaType.AVMEDIA_TYPE_AUDIO) →
      scanStreams streams k = k + i := by
  intro streams
  induction streams with
  | nil => intro k i s h; simp at h
  | cons a rest ih =>
    intro k i s h hs hbefore
    cases i with
    | zero =>
      simp only [List.getElem?_cons_zero, Option.some.injEq] at h
      subst h
      simp [scanStreams, hs]
    | succ i =>
      simp only [List.getElem?_cons_succ] at h
      have ha : a.codec_type ≠ AVMediaType.AVMEDIA_TYPE_AUDIO :=
        hbefore 0 a (Nat.succ_pos i) (by simp)
      rw [scanStreams, if_neg ha, ih (k + 1) i s h hs]
      · push_cast; omega
      · intro j t hj ht
        exact hbefore (j + 1) t (by omega) (by simpa using ht)

theorem scanStreams_none :
    ∀ (streams : List AVStream) (k : Int),
      (∀ s ∈ streams, s.codec_type ≠ AVMediaType.AVMEDIA_TYPE_AUDIO) →
      scanStreams streams k = -1 := by
  intro streams
  induction streams with
  | nil => intro k _; rfl
  | cons a rest ih =>
    intro k h
    rw [scanStreams, if_neg (h a (List.mem_cons_self _ _))]
    exact ih (k + 1) (fun s hs => h s (List.mem_cons_of_mem _ hs))

theorem findAudioStream_eq (streams : List AVStream) (hlen : streams.length < 2147483648) :
    findAudioStream streams = scanStreams streams 0 := by
  unfold findAudioStream
  rw [toInt32_of_lt streams.length hlen]
  simp

/-- C4: for a container with fewer than 2^31 streams, `decodeFile` selects the first audio
stream: if the stream at index `i` is audio and every stream before it is not, the scan
gives `i` (whatever follows) and the selected stream is that one; and when no stream is
audio, a call that got past opening and probing the file throws
`NoAudioStreamFailure`. -/
theorem first_audio_stream_is_selected {σ : Type} (env : LibAv σ) (res : Resources)
    (hlen : env.streams.length < 2147483648) :
    (∀ (i : Nat) (s : AVStream), env.streams[i]? = some s →
      s.codec_type = AVMediaType.AVMEDIA_TYPE_AUDIO →
      (∀ j t, j < i → env.streams[j]? = some t →
        t.codec_type ≠ AVMediaType.AVMEDIA_TYPE_AUDIO) →
      findAudioStream env.streams = (i : Int) ∧ selectedStream env = s) ∧
    ((∀ s ∈ env.streams, s.codec_type ≠ AVMediaType.AVMEDIA_TYPE_AUDIO) →
      env.avformat_open_input = 0 → 0 ≤ env.av_find_stream_info →
      findAudioStream env.streams = -1 ∧
      (LibAvDecoder.decodeFile env res).2 =
        Outcome.thrown Exception.NoAudioStreamFailure) := by
  constructor
  · intro i s h hs hbefore
    have hfind : findAudioStream env.streams = (i : Int) := by
      rw [findAudioStream_eq env.streams hlen,
        scanStreams_found env.streams 0 i s h hs hbefore]
      simp
    refine ⟨hfind, ?_⟩
    simp [selectedStream, hfind, List.getD, h]
  · intro hnone hopen hprobe
    have hfind : findAudioStream env.streams = -1 := by
      rw [findAudioStream_eq env.streams hlen, scanStreams_none env.streams 0 hnone]
    refine ⟨hfind, ?_⟩
    simp [LibAvDecoder.decodeFile, hopen, not_lt.mpr hprobe, hfind]

theorem first_audio_stream_is_selected_witness :
    (mixedFile.streams.length < 2147483648 ∧
      mixedFile.streams[1]? = some ⟨AVMediaType.AVMEDIA_TYPE_AUDIO, 1, 44100, 2⟩ ∧
      (∀ j t, j < 1 → mixedFile.streams[j]? = some t →
        t.codec_type ≠ AVMediaType.AVMEDIA_TYPE_AUDIO)) ∧
    (findAudioStream mixedFile.streams = ((1 : Nat) : Int) ∧
      selectedStream mixedFile = ⟨AVMediaType.AVMEDIA_TYPE_AUDIO, 1, 44100, 2⟩) :=
  have hbefore : ∀ j t, j < 1 → mixedFile.streams[j]? = some t →
      t.codec_type ≠ AVMediaType.AVMEDIA_TYPE_AUDIO := by
    intro j t hj ht
    have hj0 : j = 0 := by omega
    subst hj0
    have : t = ⟨AVMediaType.AVMEDIA_TYPE_VIDEO, 7, 0, 0⟩ := by
      have h0 : mixedFile.streams[0]? = some ⟨AVMediaType.AVMEDIA_TYPE_VIDEO, 7, 0, 0⟩ := rfl
      rw [h0] at ht
      exact (Option.some.inj ht).symm
    rw [this]
    decide
  ⟨⟨by decide, rfl, hbefore⟩,
    (first_audio_stream_is_selected mixedFile ⟨[], 0⟩ (by decide)).1 1
      ⟨AVMediaType.AVMEDIA_TYPE_AUDIO, 1, 44100, 2⟩ rfl rfl hbefore⟩

/-! ### C9: the lock manager -/

theorem runMutexOps_held :
    ∀ ops : List AVLockOp, (∀ op ∈ ops, op = AVLockOp.AV_LOCK_OBTAIN) →
      runMutexOps (some ⟨true⟩) ops = some (List.replicate ops.length 1, some ⟨true⟩) := by
  intro ops
  induction ops with
  | nil => intro _; rfl
  | cons op rest ih =>
    intro h
    have hop : op = AVLockOp.AV_LOCK_OBTAIN := h op (List.mem_cons_self _ _)
    subst hop
    have hrest := ih (fun o ho => h o (List.mem_cons_of_mem _ ho))
    simp [runMutexOps, libAvMutexManager, QMutex.tryLock, hrest, List.replicate_succ]

/-- C9: on a created handle, Obtain returns 0 exactly when the mutex is not held, and then
leaves it held; when the mutex is held it returns 1 and leaves the mutex as it was. Hence
after a successful Obtain every further Obtain made before a Release returns 1, and the
mutex stays held by the one holder; a Release makes the next Obtain succeed again. -/
theorem obtain_succeeds_iff_free (m : QMutex) (allocOk : Bool) :
    (m.held = false →
      libAvMutexManager (some m) AVLockOp.AV_LOCK_OBTAIN allocOk = some (0, some ⟨true⟩)) ∧
    (m.held = true →
      libAvMutexManager (some m) AVLockOp.AV_LOCK_OBTAIN allocOk = some (1, some m)) ∧
    (∀ status slot, libAvMutexManager (some m) AVLockOp.AV_LOCK_OBTAIN allocOk =
        some (status, slot) → (status = 0 ↔ m.held = false)) ∧
    (∀ ops : List AVLockOp, (∀ op ∈ ops, op = AVLockOp.AV_LOCK_OBTAIN) → m.held = false →
      runMutexOps (some m) (AVLockOp.AV_LOCK_OBTAIN :: ops) =
        some (0 :: List.replicate ops.length 1, some ⟨true⟩) ∧
      runMutexOps (some m) (AVLockOp.AV_LOCK_OBTAIN :: ops ++
          [AVLockOp.AV_LOCK_RELEASE, AVLockOp.AV_LOCK_OBTAIN]) =
        some (0 :: List.replicate ops.length 1 ++ [0, 0], some ⟨true⟩)) := by
  obtain ⟨held⟩ := m
  refine ⟨?_, ?_, ?_, ?_⟩
  · intro h
    simp only at h
    subst h
    rfl
  · intro h
    simp only at h
    subst h
    rfl
  · intro status slot h
    cases held <;> simp [libAvMutexManager, QMutex.tryLock] at h <;> simp [← h.1]
  · intro ops hops h
    simp only at h
    subst h
    have hheld := runMutexOps_held ops hops
    constructor
    · simp [runMutexOps, libAvMutexManager, QMutex.tryLock, hheld]
    · have happ : ∀ (l : List AVLockOp) (slot : Option QMutex) (st : List Int),
          runMutexOps (some ⟨true⟩) l = some (st, slot) →
          ∀ l2, runMutexOps (some ⟨true⟩) (l ++ l2) =
            match runMutexOps slot l2 with
            | none => none
            | some (st2, slot2) => some (st ++ st2, slot2) := by
        intro l
        generalize (some (⟨true⟩ : QMutex)) = s0
        induction l generalizing s0 with
        | nil =>
          intro slot st h l2
          simp only [runMutexOps, Option.some.injEq, Prod.mk.injEq] at h
          obtain ⟨rfl, rfl⟩ := h
          simp only [List.nil_append]
          cases runMutexOps s0 l2 with
          | none => rfl
          | some r => rfl
        | cons op l ih =>
          intro slot st h l2
          simp only [List.cons_append, runMutexOps, List.append_eq] at h ⊢
          cases hm : libAvMutexManager s0 op true with
          | none => rw [hm] at h; simp at h
          | some r =>
            obtain ⟨status, slot1⟩ := r
            rw [hm] at h
            simp only at h ⊢
            cases hr : runMutexOps slot1 l with
            | none => rw [hr] at h; simp at h
            | some r2 =>
              obtain ⟨st1, slot2⟩ := r2
              rw [hr] at h
              simp only [Option.some.injEq, Prod.mk.injEq] at h
              obtain ⟨rfl, rfl⟩ := h
              rw [ih slot1 slot2 st1 hr l2]
              cases runMutexOps slot2 l2 with
              | none => rfl
              | some r3 => rfl
      have h2 := happ ops _ _ hheld [AVLockOp.AV_LOCK_RELEASE, AVLockOp.AV_LOCK_OBTAIN]
      simp only [List.cons_append, runMutexOps, libAvMutexManager, QMutex.tryLock,
        List.append_eq]
      simp only [Bool.false_eq_true, if_false, if_true]
      rw [h2]
      rfl

theorem obtain_succeeds_iff_free_witness :
    ((⟨false⟩ : QMutex).held = false ∧
      libAvMutexManager (some ⟨false⟩) AVLockOp.AV_LOCK_OBTAIN true = some (0, some ⟨true⟩)) ∧
    ((⟨true⟩ : QMutex).held = true ∧
      libAvMutexManager (some ⟨true⟩) AVLockOp.AV_LOCK_OBTAIN true = some (1, some ⟨true⟩)) ∧
    (((∀ op ∈ [AVLockOp.AV_LOCK_OBTAIN, AVLockOp.AV_LOCK_OBTAIN],
        op = AVLockOp.AV_LOCK_OBTAIN) ∧ (⟨false⟩ : QMutex).held = false) ∧
      runMutexOps (some ⟨false⟩)
          (AVLockOp.AV_LOCK_OBTAIN :: [AVLockOp.AV_LOCK_OBTAIN, AVLockOp.AV_LOCK_OBTAIN]) =
        some (0 :: List.replicate [AVLockOp.AV_LOCK_OBTAIN,
          AVLockOp.AV_LOCK_OBTAIN].length 1, some ⟨true⟩)) :=
  ⟨⟨rfl, (obtain_succeeds_iff_free ⟨false⟩ true).1 rfl⟩,
    ⟨rfl, (obtain_succeeds_iff_free ⟨true⟩ true).2.1 rfl⟩,
    ⟨⟨by decide, rfl⟩,
      ((obtain_succeeds_iff_free ⟨false⟩ true).2.2.2
        [AVLockOp.AV_LOCK_OBTAIN, AVLockOp.AV_LOCK_OBTAIN] (by decide) rfl).1⟩⟩

/-! ### C7: sample count and channel count -/

theorem readFrames_not_diverged {σ : Type} (env : LibAv σ) (audioStream : Int) :
    ∀ (packets : List AVPacket) (st : FileState σ),
      readFrames env audioStream packets st ≠ Outcome.diverged := by
  intro packets
  induction packets with
  | nil => intro st; simp [readFrames]
  | cons avpkt rest ih =>
    intro st
    by_cases hidx : avpkt.stream_index = audioStream
    · rcases decodePacket_cases env.avcodec_decode_audio3 env.canGrow st.cCtx avpkt st.astrm
        with hthrow | ⟨ret, ps, hdec, -⟩
      · simp [readFrames, hidx, hthrow]
      · simp only [readFrames, if_pos hidx, hdec]
        by_cases hret : ret ≠ 0
        · simp only [if_pos hret]
          by_cases hlt : st.badPacketCount < 100
          · simp only [if_pos hlt]; exact ih _
          · simp [if_neg hlt]
        · simp only [if_neg hret]; exact ih _
    · simp only [readFrames, if_neg hidx]; exact ih st

theorem decodeFile_not_diverged {σ : Type} (env : LibAv σ) (res : Resources) :
    (LibAvDecoder.decodeFile env res).2 ≠ Outcome.diverged := by
  by_cases h1 : env.avformat_open_input ≠ 0
  · simp [LibAvDecoder.decodeFile, h1]
  by_cases h2 : env.av_find_stream_info < 0
  · simp [LibAvDecoder.decodeFile, h1, h2]
  by_cases h3 : findAudioStream env.streams = -1
  · simp [LibAvDecoder.decodeFile, h1, h2, h3]
  by_cases h4 : env.avcodec_find_decoder (selectedStream env).codec_id = false
  · simp [LibAvDecoder.decodeFile, h1, h2, h3, h4]
  by_cases h5 : env.avcodec_open2 < 0
  · simp [LibAvDecoder.decodeFile, h1, h2, h3, h4, h5]
  have hready : ReachesPacketLoop env :=
    ⟨not_not.mp h1, not_lt.mp h2, h3, by simpa using h4, not_lt.mp h5⟩
  rw [decodeFile_ready env res hready]
  have hrf := readFrames_not_diverged env (findAudioStream env.streams) env.packets
    ⟨env.cCtx, initialStream env, 0⟩
  cases hr : readFrames env (findAudioStream env.streams) env.packets
      ⟨env.cCtx, initialStream env, 0⟩ with
  | returned st => simp
  | thrown e => simp
  | diverged => exact absurd hr hrf

theorem decodedSamples_length_dvd {σ : Type} (dec : σ → AVPacket → DecodeOutput × σ)
    (ch : Nat) (hframes : ∀ s p, ch ∣ (dec s p).1.outputBufferSize / 2) :
    ∀ calls : List DecodeCall, (∀ c ∈ calls, ∃ s, c.out = (dec s c.avpkt).1) →
      ch ∣ (decodedSamples calls).length := by
  intro calls
  induction calls with
  | nil => intro _; simp [decodedSamples]
  | cons c rest ih =>
    intro h
    have hrest := ih (fun d hd => h d (List.mem_cons_of_mem _ hd))
    obtain ⟨s, hs⟩ := h c (List.mem_cons_self _ _)
    simp only [decodedSamples]
    split
    · rw [List.length_append]
      apply Nat.dvd_add _ hrest
      simp only [samplesOf, List.length_map, List.length_range, hs]
      exact hframes s c.avpkt
    · exact hrest

theorem sndfile_returned {α : Type} (env : SndFile α) (res : Resources) (ab : AudioBuffer α)
    (h : (LibSndFileDecoder.decodeFile env res).2 = Outcome.returned ab) :
    ∃ info, env.sf_open = some info ∧ ab.channels = info.channels ∧
      ab.frameRate = info.samplerate ∧ ab.getSampleCount = info.frames * info.channels := by
  cases hopen : env.sf_open with
  | none => simp [LibSndFileDecoder.decodeFile, hopen] at h
  | some info =>
    refine ⟨info, rfl, ?_⟩
    by_cases hgrow : env.canGrow (info.frames * info.channels) = true
    · rw [sndfile_decodeFile_eq env res info hopen hgrow] at h
      split at h
      · simp at h
      · simp only [Outcome.returned.injEq] at h
        subst h
        refine ⟨rfl, rfl, ?_⟩
        simp only [AudioBuffer.getSampleCount, List.length_append, List.length_take,
          List.length_drop, List.length_replicate]
        omega
    · simp [LibSndFileDecoder.decodeFile, hopen, AudioBuffer.addSamples, hgrow] at h

/-- C7 as stated fails on `oddFile`: `decodeFile` returns a stereo stream of one sample,
and 2 does not divide 1. Nothing in the adapter relates what the decoder emits to the
channel count. -/
theorem odd_sample_count_is_returned :
    ∃ b, (LibAvDecoder.decodeFile oddFile ⟨[], 0⟩).2 = Outcome.returned b ∧
      b.channels = 2 ∧ b.getSampleCount = 1 ∧ ¬ b.channels ∣ b.getSampleCount :=
  ⟨⟨44100, 2, [3]⟩, by decide, rfl, rfl, by decide⟩

/-- C7, amended: a stream returned by the libav adapter has a sample count that is a
multiple of its channel count provided every call of the decoder emits a whole number of
frames (a sample count that is a multiple of the selected stream's channel count); a
buffer returned by the sound-file adapter always has `frames * channels` samples, a
multiple of its channel count. -/
theorem sample_count_multiple_of_channels {σ α : Type} (env : LibAv σ) (sf : SndFile α)
    (res : Resources) :
    ((∀ s p, (selectedStream env).channels ∣
        (env.avcodec_decode_audio3 s p).1.outputBufferSize / 2) →
      ∀ b, (LibAvDecoder.decodeFile env res).2 = Outcome.returned b →
        b.channels ∣ b.getSampleCount) ∧
    (∀ ab, (LibSndFileDecoder.decodeFile sf res).2 = Outcome.returned ab →
      ab.channels ∣ ab.getSampleCount) := by
  constructor
  · intro hframes b hb
    obtain ⟨-, st, hrf, rfl⟩ := decodeFile_returned env res b hb
    obtain ⟨-, hch, calls, hstream, hfrom⟩ := readFrames_returned env _ _ _ _ hrf
    simp only [initialStream, List.nil_append] at hch hstream
    rw [AudioStream.getSampleCount, hstream, hch]
    exact decodedSamples_length_dvd env.avcodec_decode_audio3 _ hframes calls hfrom
  · intro ab hab
    obtain ⟨info, -, hch, -, hcount⟩ := sndfile_returned sf res ab hab
    rw [hch, hcount]
    exact Dvd.intro_left _ rfl

theorem sample_count_multiple_of_channels_witness :
    ((∀ s p, (selectedStream stereoFile).channels ∣
        (stereoFile.avcodec_decode_audio3 s p).1.outputBufferSize / 2) ∧
      (LibAvDecoder.decodeFile stereoFile ⟨[], 0⟩).2 =
        Outcome.returned ⟨44100, 2, [2, 2, 3, 3, 5, 5, 4, 4]⟩ ∧
      (LibSndFileDecoder.decodeFile wholeFile ⟨[], 0⟩).2 =
        Outcome.returned ⟨44100, 2, [5, 6, 7, 8]⟩) ∧
    ((⟨44100, 2, [2, 2, 3, 3, 5, 5, 4, 4]⟩ : AudioStream).channels ∣
        (⟨44100, 2, [2, 2, 3, 3, 5, 5, 4, 4]⟩ : AudioStream).getSampleCount ∧
      (⟨44100, 2, [5, 6, 7, 8]⟩ : AudioBuffer Int).channels ∣
        (⟨44100, 2, [5, 6, 7, 8]⟩ : AudioBuffer Int).getSampleCount) :=
  have hframes : ∀ s p, (selectedStream stereoFile).channels ∣
      (stereoFile.avcodec_decode_audio3 s p).1.outputBufferSize / 2 := by
    intro s p
    have hch : (selectedStream stereoFile).channels = 2 := by decide
    rw [hch]
    show 2 ∣ (frameDecoder s p).1.outputBufferSize / 2
    unfold frameDecoder
    split
    · show 2 ∣ 4 / 2
      decide
    · show 2 ∣ 0 / 2
      decide
  ⟨⟨hframes, by decide, by decide⟩,
    (sample_count_multiple_of_channels stereoFile wholeFile ⟨[], 0⟩).1 hframes _ (by decide),
    (sample_count_multiple_of_channels stereoFile wholeFile ⟨[], 0⟩).2 _ (by decide)⟩

/-! ### C6 and C8: fatal conditions and the handles they leave open -/

/-- C6: a path that cannot be opened makes either adapter throw `OpenFailure` with the
resources as they were, no audio buffer created. Every other fatal condition of the libav
adapter ends the call with its exception: a failed stream probe, no audio stream, no
decoder, a decoder that does not open, more undecodable packets than the packet loop
tolerates, and an allocation failure inside `decodePacket`. The call never hangs, and it
returns a buffer only when none of the conditions before the packet loop held and the
packet loop itself returned. -/
theorem fatal_conditions_throw {σ α : Type} (env : LibAv σ) (sf : SndFile α)
    (res : Resources) :
    (env.avformat_open_input ≠ 0 →
      LibAvDecoder.decodeFile env res = (res, Outcome.thrown Exception.OpenFailure)) ∧
    (sf.sf_open = none →
      LibSndFileDecoder.decodeFile sf res = (res, Outcome.thrown Exception.OpenFailure)) ∧
    (env.avformat_open_input = 0 → env.av_find_stream_info < 0 →
      (LibAvDecoder.decodeFile env res).2 = Outcome.thrown Exception.StreamProbeFailure) ∧
    (env.avformat_open_input = 0 → 0 ≤ env.av_find_stream_info →
      findAudioStream env.streams = -1 →
      (LibAvDecoder.decodeFile env res).2 = Outcome.thrown Exception.NoAudioStreamFailure) ∧
    (env.avformat_open_input = 0 → 0 ≤ env.av_find_stream_info →
      findAudioStream env.streams ≠ -1 →
      env.avcodec_find_decoder (selectedStream env).codec_id = false →
      (LibAvDecoder.decodeFile env res).2 =
        Outcome.thrown Exception.UnsupportedCodecFailure) ∧
    (env.avformat_open_input = 0 → 0 ≤ env.av_find_stream_info →
      findAudioStream env.streams ≠ -1 →
      env.avcodec_find_decoder (selectedStream env).codec_id = true →
      env.avcodec_open2 < 0 →
      (LibAvDecoder.decodeFile env res).2 = Outcome.thrown Exception.CodecOpenFailure) ∧
    (ReachesPacketLoop env → (∀ a b, env.canGrow a b = true) →
      100 < undecodableCount (fileOutcomes env) →
      (LibAvDecoder.decodeFile env res).2 =
        Outcome.thrown Exception.ExcessiveCorruptionFailure) ∧
    (ReachesPacketLoop env → ∀ pre avpkt rest st, env.packets = pre ++ avpkt :: rest →
      readFrames env (findAudioStream env.streams) pre ⟨env.cCtx, initialStream env, 0⟩ =
        Outcome.returned st →
      avpkt.stream_index = findAudioStream env.streams →
      decodePacket env.avcodec_decode_audio3 env.canGrow st.cCtx avpkt st.astrm =
        Outcome.thrown Exception.AllocationFailure →
      (LibAvDecoder.decodeFile env res).2 = Outcome.thrown Exception.AllocationFailure) ∧
    (LibAvDecoder.decodeFile env res).2 ≠ Outcome.diverged ∧
    (∀ b, (LibAvDecoder.decodeFile env res).2 = Outcome.returned b →
      ReachesPacketLoop env ∧
      ∃ st, readFrames env (findAudioStream env.streams) env.packets
        ⟨env.cCtx, initialStream env, 0⟩ = Outcome.returned st ∧ st.astrm = b) := by
  refine ⟨?_, ?_, ?_, ?_, ?_, ?_, ?_, ?_, decodeFile_not_diverged env res,
    decodeFile_returned env res⟩
  · intro h
    simp [LibAvDecoder.decodeFile, h]
  · intro h
    simp [LibSndFileDecoder.decodeFile, h]
  · intro h1 h2
    simp [LibAvDecoder.decodeFile, h1, h2]
  · intro h1 h2 h3
    simp [LibAvDecoder.decodeFile, h1, not_lt.mpr h2, h3]
  · intro h1 h2 h3 h4
    simp [LibAvDecoder.decodeFile, h1, not_lt.mpr h2, h3, h4]
  · intro h1 h2 h3 h4 h5
    simp [LibAvDecoder.decodeFile, h1, not_lt.mpr h2, h3, h4, h5]
  · intro hready hgrow hbad
    exact (decodeFile_granted env res hready hgrow).2 hbad
  · intro hready pre avpkt rest st hpk hpre hidx hthrow
    rw [decodeFile_ready env res hready, hpk, readFrames_append, hpre]
    simp only [readFrames, if_pos hidx, hthrow]

theorem fatal_conditions_throw_witness :
    (((exampleFile 1 0 [] true 0 [] grantAll).avformat_open_input ≠ 0 ∧
        LibAvDecoder.decodeFile (exampleFile 1 0 [] true 0 [] grantAll) ⟨[], 0⟩ =
          (⟨[], 0⟩, Outcome.thrown Exception.OpenFailure)) ∧
      (missingSoundFile.sf_open = none ∧
        LibSndFileDecoder.decodeFile missingSoundFile ⟨[], 0⟩ =
          (⟨[], 0⟩, Outcome.thrown Exception.OpenFailure))) ∧
    ((LibAvDecoder.decodeFile (exampleFile 0 (-1) [] true 0 [] grantAll) ⟨[], 0⟩).2 =
        Outcome.thrown Exception.StreamProbeFailure ∧
      (LibAvDecoder.decodeFile (exampleFile 0 0
          [⟨AVMediaType.AVMEDIA_TYPE_VIDEO, 7, 0, 0⟩] true 0 [] grantAll) ⟨[], 0⟩).2 =
        Outcome.thrown Exception.NoAudioStreamFailure ∧
      (LibAvDecoder.decodeFile (exampleFile 0 0 videoAndAudio false 0 [] grantAll) ⟨[], 0⟩).2 =
        Outcome.thrown Exception.UnsupportedCodecFailure ∧
      (LibAvDecoder.decodeFile (exampleFile 0 0 videoAndAudio true (-1) [] grantAll)
          ⟨[], 0⟩).2 = Outcome.thrown Exception.CodecOpenFailure) ∧
    ((LibAvDecoder.decodeFile (badPacketFile 101) ⟨[], 0⟩).2 =
        Outcome.thrown Exception.ExcessiveCorruptionFailure ∧
      (LibAvDecoder.decodeFile starvedFile ⟨[], 0⟩).2 =
        Outcome.thrown Exception.AllocationFailure) :=
  ⟨⟨⟨by decide,
        (fatal_conditions_throw (exampleFile 1 0 [] true 0 [] grantAll) missingSoundFile
          ⟨[], 0⟩).1 (by decide)⟩,
      ⟨rfl,
        (fatal_conditions_throw (exampleFile 1 0 [] true 0 [] grantAll) missingSoundFile
          ⟨[], 0⟩).2.1 rfl⟩⟩,
    ⟨(fatal_conditions_throw (exampleFile 0 (-1) [] true 0 [] grantAll) missingSoundFile
        ⟨[], 0⟩).2.2.1 rfl (by decide),
      (fatal_conditions_throw (exampleFile 0 0 [⟨AVMediaType.AVMEDIA_TYPE_VIDEO, 7, 0, 0⟩]
        true 0 [] grantAll) missingSoundFile ⟨[], 0⟩).2.2.2.1 rfl (by decide) (by decide),
      (fatal_conditions_throw (exampleFile 0 0 videoAndAudio false 0 [] grantAll)
        missingSoundFile ⟨[], 0⟩).2.2.2.2.1 rfl (by decide) (by decide) rfl,
      (fatal_conditions_throw (exampleFile 0 0 videoAndAudio true (-1) [] grantAll)
        missingSoundFile ⟨[], 0⟩).2.2.2.2.2.1 rfl (by decide) (by decide) rfl (by decide)⟩,
    ⟨(fatal_conditions_throw (badPacketFile 101) missingSoundFile ⟨[], 0⟩).2.2.2.2.2.2.1
        (badPacketFile_ready 101) (fun _ _ => rfl)
        (by rw [badPacketFile_outcomes, undecodableCount_replicate]; decide),
      (fatal_conditions_throw starvedFile missingSoundFile ⟨[], 0⟩).2.2.2.2.2.2.2.1
        ⟨by decide, by decide, by decide, by decide, by decide⟩ [] ⟨[3], 1, 1⟩ []
        ⟨(), initialStream starvedFile, 0⟩ rfl rfl (by decide) (by decide)⟩⟩

/-- C8: the handles opened during a call are not released on the error paths. At the
failing input, a sound file whose bulk read falls short, the sound-file adapter throws
with the sound-file handle still open; the libav adapter throws `NoAudioStreamFailure`
with the container still open, and aborts on the 101st bad packet with the decoder and
the container still open. Only the returning paths give the handles back. -/
theorem handles_stay_open_on_error_paths :
    LibSndFileDecoder.decodeFile shortFile ⟨[], 0⟩ =
      (⟨[Handle.soundFile], 1⟩, Outcome.thrown Exception.IncompleteReadFailure) ∧
    LibAvDecoder.decodeFile (exampleFile 0 0 [⟨AVMediaType.AVMEDIA_TYPE_VIDEO, 7, 0, 0⟩]
        true 0 [] grantAll) ⟨[], 0⟩ =
      (⟨[Handle.container], 0⟩, Outcome.thrown Exception.NoAudioStreamFailure) ∧
    LibAvDecoder.decodeFile (badPacketFile 101) ⟨[], 0⟩ =
      (⟨[Handle.decoder, Handle.container], 1⟩,
        Outcome.thrown Exception.ExcessiveCorruptionFailure) ∧
    LibSndFileDecoder.decodeFile wholeFile ⟨[], 0⟩ =
      (⟨[], 1⟩, Outcome.returned ⟨44100, 2, [5, 6, 7, 8]⟩) ∧
    LibAvDecoder.decodeFile mixedFile ⟨[], 0⟩ =
      (⟨[], 1⟩, Outcome.returned ⟨44100, 2, [2, 3, 5, 4]⟩) := by
  refine ⟨by decide, by decide, ?_, by decide, by decide⟩
  have h2 : (LibAvDecoder.decodeFile (badPacketFile 101) ⟨[], 0⟩).2 =
      Outcome.thrown Exception.ExcessiveCorruptionFailure :=
    (decodeFile_granted (badPacketFile 101) ⟨[], 0⟩ (badPacketFile_ready 101)
      (fun _ _ => rfl)).2 (by rw [badPacketFile_outcomes, undecodableCount_replicate]; decide)
  rw [decodeFile_ready _ _ (badPacketFile_ready 101)] at h2 ⊢
  cases hr : readFrames (badPacketFile 101) (findAudioStream (badPacketFile 101).streams)
      (badPacketFile 101).packets ⟨(badPacketFile 101).cCtx, initialStream (badPacketFile 101), 0⟩ with
  | returned st => rw [hr] at h2; simp at h2
  | diverged => rw [hr] at h2; simp at h2
  | thrown e =>
    rw [hr] at h2
    simp only [Outcome.thrown.injEq] at h2
    subst h2
    rfl

end KeyFinder
